import Mathlib

/-!
# Verification of the ikari scene graph and animation core

Shallow embedding of `src/ikari/src/scene.rs`, `src/ikari/src/animation.rs`
and the animation-length computation of `src/ikari/src/gltf_loader.rs`.

Conventions of the embedding:
* `f32` values are represented by exact rationals (`ℚ`); the byte-level
  `bytemuck` casts of keyframe value buffers are represented by lists of
  rationals (one entry per 32-bit float word).
* A Rust panic (out-of-bounds slice index, `Option::unwrap` on `None`) is
  represented by the `Panic` monad below; non-termination of an unbounded
  ancestor walk is also mapped to `Panic.panicked` via a fuel bound that is
  strictly larger than any terminating walk of the source program.
* `glam` (vector math library) and the `crate::transform` module are external
  to the provided sources; `Transform` is modelled from the spec (§4.1), and
  the two quaternion helpers of glam used by the sampler (`Quat::slerp`,
  `Quat::normalize`) are passed as explicit function parameters.
-/

/-- Result of running a piece of Rust code that may panic
(out-of-bounds indexing, `unwrap` on `None`). -/
inductive Panic (α : Type u) where
  | panicked : Panic α
  | ok : α → Panic α
  deriving DecidableEq, Repr

namespace Panic

def bind : Panic α → (α → Panic β) → Panic β
  | .panicked, _ => .panicked
  | .ok a, f => f a

def map (f : α → β) : Panic α → Panic β
  | .panicked => .panicked
  | .ok a => .ok (f a)

instance : Monad Panic where
  pure := Panic.ok
  bind := Panic.bind
  map := Panic.map

/-- `Option::unwrap`: panics on `None`. -/
def ofOption : Option α → Panic α
  | none => .panicked
  | some a => .ok a

end Panic

/-- Rust slice indexing `xs[i]`: panics when out of bounds. -/
def listIndex (l : List α) (i : Nat) : Panic α :=
  Panic.ofOption (l.get? i)

/-- Rust `iter().map(f).collect::<Result<Vec<_>, _>>()`: the first panic (or
error) wins, otherwise the list of results in order. -/
def mapPanic (f : α → Panic β) : List α → Panic (List β)
  | [] => .ok []
  | a :: rest => do
    let b ← f a
    let bs ← mapPanic f rest
    pure (b :: bs)

/-- `glam::f32::Vec3` with exact rational coordinates. -/
structure Vec3Q where
  x : ℚ
  y : ℚ
  z : ℚ
  deriving DecidableEq, Repr

/-- `glam::f32::Vec4` with exact rational coordinates. -/
structure Vec4Q where
  x : ℚ
  y : ℚ
  z : ℚ
  w : ℚ
  deriving DecidableEq, Repr

/-- `glam::f32::Quat` with exact rational coordinates. -/
structure QuatQ where
  x : ℚ
  y : ℚ
  z : ℚ
  w : ℚ
  deriving DecidableEq, Repr

instance : Add Vec3Q where
  add a b := ⟨a.x + b.x, a.y + b.y, a.z + b.z⟩

/-- Componentwise product (used for composing non-uniform scales). -/
instance : Mul Vec3Q where
  mul a b := ⟨a.x * b.x, a.y * b.y, a.z * b.z⟩

/-- Scaling a vector by an `f32`, `v * s`. -/
instance : HMul Vec3Q ℚ Vec3Q where
  hMul v s := ⟨v.x * s, v.y * s, v.z * s⟩

instance : Add QuatQ where
  add a b := ⟨a.x + b.x, a.y + b.y, a.z + b.z, a.w + b.w⟩

/-- Componentwise scaling of a quaternion by an `f32` (as used by the
cubic-Hermite basis, which treats the quaternion as a raw 4-vector). -/
instance : HMul QuatQ ℚ QuatQ where
  hMul q s := ⟨q.x * s, q.y * s, q.z * s, q.w * s⟩

def Vec3Q.zero : Vec3Q := ⟨0, 0, 0⟩
def Vec3Q.one : Vec3Q := ⟨1, 1, 1⟩
def QuatQ.identity : QuatQ := ⟨0, 0, 0, 1⟩

/-- Vector cross product. -/
def Vec3Q.cross (a b : Vec3Q) : Vec3Q :=
  ⟨a.y * b.z - a.z * b.y, a.z * b.x - a.x * b.z, a.x * b.y - a.y * b.x⟩

/-- Hamilton product of two quaternions. -/
def QuatQ.mul (q r : QuatQ) : QuatQ :=
  ⟨q.w * r.x + q.x * r.w + q.y * r.z - q.z * r.y,
   q.w * r.y - q.x * r.z + q.y * r.w + q.z * r.x,
   q.w * r.z + q.x * r.y - q.y * r.x + q.z * r.w,
   q.w * r.w - q.x * r.x - q.y * r.y - q.z * r.z⟩

/-- Rotation of a vector by a unit quaternion, `q v q⁻¹`, in the standard
cross-product form. -/
def QuatQ.rotate (q : QuatQ) (v : Vec3Q) : Vec3Q :=
  let u : Vec3Q := ⟨q.x, q.y, q.z⟩
  let t : Vec3Q := u.cross v * (2 : ℚ)
  v + t * q.w + u.cross t

/-- Modelled from the spec: the `crate::transform` module (`pub mod transform`
in `lib.rs`) is not among the provided sources.  Per §4.1 a `Transform` is a
position (vector3), a rotation (unit quaternion) and a non-uniform scale
(vector3). -/
structure Transform where
  position : Vec3Q
  rotation : QuatQ
  scale : Vec3Q
  deriving DecidableEq, Repr

namespace Transform

/-- Modelled from the spec: the identity transform (§4.1, "identity as both
algebraic and default value"). -/
def IDENTITY : Transform := ⟨Vec3Q.zero, QuatQ.identity, Vec3Q.one⟩

/-- Modelled from the spec: composition `A * B` where "`B` is applied in `A`'s
local space" (§4.1), i.e. `B`'s position is scaled and rotated into `A`'s
frame and then offset by `A`'s position; rotations and scales compose
componentwise. -/
def mul (a b : Transform) : Transform :=
  { position := a.position + a.rotation.rotate (a.scale * b.position)
    rotation := a.rotation.mul b.rotation
    scale := a.scale * b.scale }

instance : Mul Transform := ⟨Transform.mul⟩

/-- Modelled from the spec: `set_position` replaces the position component
"without disturbing the others" (§4.1). -/
def set_position (t : Transform) (p : Vec3Q) : Transform := { t with position := p }

/-- Modelled from the spec: `set_scale` replaces the scale component (§4.1). -/
def set_scale (t : Transform) (s : Vec3Q) : Transform := { t with scale := s }

/-- Modelled from the spec: `set_rotation` replaces the rotation component
(§4.1). -/
def set_rotation (t : Transform) (r : QuatQ) : Transform := { t with rotation := r }

end Transform

/-- `GameNodeId(u32, usize)`: (index into `Scene::nodes`, generation). -/
structure GameNodeId where
  index : Nat
  gen : Nat
  deriving DecidableEq, Repr

/-- `scene.rs` `Material` (the `DynamicPbrParams` payload is external renderer
data, represented by `Option Unit`). -/
inductive Material where
  | pbr (binded_material_index : Nat) (dynamic_pbr_params : Option Unit)
  | unlit (color : Vec3Q)
  | transparent (color : Vec4Q) (premultiplied_alpha : Bool)
  deriving DecidableEq, Repr

/-- `scene.rs` `GameNodeVisual`. -/
structure GameNodeVisual where
  material : Material
  mesh_index : Nat
  wireframe : Bool
  cullable : Bool
  deriving DecidableEq, Repr

/-- `scene.rs` `GameNode`. -/
structure GameNode where
  transform : Transform
  skin_index : Option Nat
  visual : Option GameNodeVisual
  name : Option String
  parent_id : Option GameNodeId
  id : GameNodeId
  deriving DecidableEq, Repr

/-- `scene.rs` `GameNodeDesc`. -/
structure GameNodeDesc where
  transform : Transform
  skin_index : Option Nat
  visual : Option GameNodeVisual
  name : Option String
  parent_id : Option GameNodeId
  deriving DecidableEq, Repr

/-- `scene.rs` `Skin`. -/
structure Skin where
  node_id : GameNodeId
  bone_node_ids : List GameNodeId
  bone_inverse_bind_matrices : List (List ℚ)
  bone_bounding_box_transforms : List Transform
  deriving DecidableEq, Repr

/-- `gltf::animation::Property`. -/
inductive GltfProperty where
  | Translation
  | Rotation
  | Scale
  | MorphTargetWeights
  deriving DecidableEq, Repr

/-- `gltf::animation::Interpolation`. -/
inductive GltfInterpolation where
  | Linear
  | Step
  | CubicSpline
  deriving DecidableEq, Repr

/-- `animation.rs` `Channel`; the raw `keyframe_values_u8` byte buffer is
represented by its sequence of 32-bit float words. -/
structure Channel where
  node_id : GameNodeId
  property : GltfProperty
  interpolation_type : GltfInterpolation
  keyframe_timings : List ℚ
  keyframe_values : List ℚ
  deriving DecidableEq, Repr

/-- `animation.rs` `LoopType`. -/
inductive LoopType where
  | Once
  | Wrap
  | PingPong
  deriving DecidableEq, Repr

/-- `animation.rs` `AnimationState`. -/
structure AnimationState where
  current_time_seconds : ℚ
  is_playing : Bool
  loop_type : LoopType
  deriving DecidableEq, Repr

/-- `animation.rs` `Animation`. -/
structure Animation where
  name : Option String
  length_seconds : ℚ
  speed : ℚ
  channels : List Channel
  state : AnimationState
  deriving DecidableEq, Repr

/-- `scene.rs` `IndexedGameNodeDesc` (loader output: parent by index). -/
structure IndexedGameNodeDesc where
  transform : Transform
  skin_index : Option Nat
  visual : Option GameNodeVisual
  name : Option String
  parent_index : Option Nat
  deriving DecidableEq, Repr

/-- `scene.rs` `IndexedSkin`. -/
structure IndexedSkin where
  bone_node_indices : List Nat
  bone_inverse_bind_matrices : List (List ℚ)
  bone_bounding_box_transforms : List Transform
  deriving DecidableEq, Repr

/-- `scene.rs` `IndexedChannel`. -/
structure IndexedChannel where
  node_index : Nat
  property : GltfProperty
  interpolation_type : GltfInterpolation
  keyframe_timings : List ℚ
  keyframe_values : List ℚ
  deriving DecidableEq, Repr

/-- `scene.rs` `IndexedAnimation`. -/
structure IndexedAnimation where
  name : Option String
  length_seconds : ℚ
  channels : List IndexedChannel
  deriving DecidableEq, Repr

/-- `scene.rs` `Scene` restricted to the state the verified operations touch
(the parallel per-tick caches, lights and the skeleton parent maps are not
read by any verified operation). -/
structure Scene where
  nodes : List (Option GameNode × Nat)
  empty_node_indices : List Nat
  skins : List Skin
  animations : List Animation
  deriving DecidableEq, Repr

/-- `scene.rs` `MAX_NODE_HIERARCHY_LEVELS`. -/
def MAX_NODE_HIERARCHY_LEVELS : Nat := 32

namespace Scene

/-- `Scene::get_node`: indexes `self.nodes[node_index]` (panics when the index
is out of bounds) and returns the slot's node exactly when the stored
generation matches the id's generation. -/
def get_node (s : Scene) (node_id : GameNodeId) : Panic (Option GameNode) :=
  match s.nodes.get? node_id.index with
  | none => .panicked
  | some (actual_node, actual_node_gen) =>
    .ok (if actual_node_gen = node_id.gen then actual_node else none)

/-- `Scene::get_node_mut`: the lookup made by the mutable accessor, which is
textually the same index-and-generation check as `get_node`. -/
def get_node_mut (s : Scene) (node_id : GameNodeId) : Panic (Option GameNode) :=
  match s.nodes.get? node_id.index with
  | none => .panicked
  | some (actual_node, actual_node_gen) =>
    .ok (if actual_node_gen = node_id.gen then actual_node else none)

/-- `Scene::get_node_mut` followed by a mutation of the found node: updates
the node in place when the lookup succeeds and leaves the scene unchanged
when it returns `None`. -/
def update_node (s : Scene) (node_id : GameNodeId) (f : GameNode → GameNode) :
    Panic Scene :=
  match s.nodes.get? node_id.index with
  | none => .panicked
  | some (actual_node, actual_node_gen) =>
    if actual_node_gen = node_id.gen then
      match actual_node with
      | some node =>
        .ok { s with nodes := s.nodes.set node_id.index (some (f node), actual_node_gen) }
      | none => .ok s
    else .ok s

/-- `Scene::add_node`: pops the last free-list index if any (reading that
slot's generation, which panics when the free-list index is out of bounds),
stores the new node there with the generation incremented by one; otherwise
appends a fresh slot with generation 0. -/
def add_node (s : Scene) (node : GameNodeDesc) : Panic (Scene × GameNode) :=
  let make_new_node : GameNodeId → GameNode := fun id =>
    { transform := node.transform
      skin_index := node.skin_index
      visual := node.visual
      name := node.name
      parent_id := node.parent_id
      id := id }
  match s.empty_node_indices.getLast? with
  | some empty_node_index =>
    match s.nodes.get? empty_node_index with
    | none => .panicked
    | some (_, empty_node_gen) =>
      let new_gen := empty_node_gen + 1
      let new_node := make_new_node ⟨empty_node_index, new_gen⟩
      .ok ({ s with
              nodes := s.nodes.set empty_node_index (some new_node, new_gen)
              empty_node_indices := s.empty_node_indices.dropLast },
           new_node)
  | none =>
    let new_node := make_new_node ⟨s.nodes.length, 0⟩
    .ok ({ s with nodes := s.nodes ++ [(some new_node, 0)] }, new_node)

/-- `Scene::remove_node`: no-ops when `get_node` finds nothing; otherwise
takes the node out of its slot (keeping the generation) and pushes the slot
index onto the free list. -/
def remove_node (s : Scene) (node_id : GameNodeId) : Panic Scene :=
  match s.get_node node_id with
  | .panicked => .panicked
  | .ok none => .ok s
  | .ok (some node) =>
    match s.nodes.get? node.id.index with
    | none => .panicked
    | some (_, g) =>
      .ok { s with
              nodes := s.nodes.set node.id.index (none, g)
              empty_node_indices := s.empty_node_indices ++ [node.id.index] }

/-- `Scene::get_node_ancestry_list`, forced by the `collect()` of its caller:
`std::iter::successors` yields the seed id, then repeatedly yields
`get_node(id).and_then(|n| n.parent_id)` until it is `None` — so an id is
yielded *before* it is looked up.  The fuel argument bounds the walk; fuel
exhaustion models the non-termination of the source program on a cyclic
parent chain as a panic. -/
def get_node_ancestry_list (s : Scene) (node_id : GameNodeId) :
    Nat → Panic (List GameNodeId)
  | 0 => .panicked
  | fuel + 1 =>
    match s.get_node node_id with
    | .panicked => .panicked
    | .ok none => .ok [node_id]
    | .ok (some node) =>
      match node.parent_id with
      | none => .ok [node_id]
      | some parent_id =>
        (get_node_ancestry_list s parent_id fuel).map (node_id :: ·)

/-- The fold body of `Scene::get_global_transform_for_node`: for each ancestry
entry (root-first), indexes `self.nodes[node_index]` and `unwrap`s the slot's
node, multiplying its transform onto the accumulator. -/
def fold_ancestry_transforms (s : Scene) : List GameNodeId → Transform → Panic Transform
  | [], acc => .ok acc
  | node_id :: rest, acc =>
    match s.nodes.get? node_id.index with
    | none => .panicked
    | some (none, _) => .panicked
    | some (some node, _) => fold_ancestry_transforms s rest (acc * node.transform)

/-- `Scene::get_global_transform_for_node`: collects the ancestry list and
folds the ancestors' transforms root-ward down to the node, starting from the
identity transform.  The fuel passed to the ancestry walk strictly exceeds
the length of any terminating walk (a chain of live nodes visits pairwise
distinct slots, and at most one extra dead id is yielded at the end). -/
def get_global_transform_for_node (s : Scene) (node_id : GameNodeId) :
    Panic Transform :=
  match s.get_node_ancestry_list node_id
      (s.nodes.length + MAX_NODE_HIERARCHY_LEVELS + 2) with
  | .panicked => .panicked
  | .ok node_ancestry_list =>
    fold_ancestry_transforms s node_ancestry_list.reverse Transform.IDENTITY

/-- The live nodes of the scene in slot order (`Scene::nodes()` iterator). -/
def live_nodes (s : Scene) : List GameNode := s.nodes.filterMap Prod.fst

end Scene

/-- The `convert_node_id` closure of `Scene::merge_scene`: offsets the slot
index by the node-index offset and resets the generation to 0. -/
def convert_node_id (node_index_offset : Nat) (old_node_id : GameNodeId) :
    GameNodeId :=
  ⟨old_node_id.index + node_index_offset, 0⟩

/-- The per-node rewriting loop body of `Scene::merge_scene`: offsets the
visual's mesh index and (for PBR materials) material index, the skin index,
and converts the parent id and the node's own id. -/
def merge_rewrite_node (mesh_index_offset material_index_offset skin_index_offset
    node_index_offset : Nat) (node : GameNode) : GameNode :=
  { node with
    visual := node.visual.map (fun visual =>
      { visual with
        mesh_index := visual.mesh_index + mesh_index_offset
        material := match visual.material with
          | .pbr binded_material_index dynamic_pbr_params =>
            .pbr (binded_material_index + material_index_offset) dynamic_pbr_params
          | m => m })
    skin_index := node.skin_index.map (· + skin_index_offset)
    parent_id := node.parent_id.map (convert_node_id node_index_offset)
    id := convert_node_id node_index_offset node.id }

namespace Scene

/-- `Scene::merge_scene`: rewrites the other scene's node/skin/animation
references by the offsets and appends its nodes, skins and animations.  The
mesh and material offsets are the lengths of the renderer's binding arrays
(external state, taken as parameters); the other scene's free list is
dropped.  The rebuilt skeleton parent maps are outside the modelled state. -/
def merge_scene (s : Scene) (mesh_index_offset material_index_offset : Nat)
    (other : Scene) : Scene :=
  let skin_index_offset := s.skins.length
  let node_index_offset := s.nodes.length
  let conv := convert_node_id node_index_offset
  let other_nodes := other.nodes.map (fun slot =>
    (slot.1.map (merge_rewrite_node mesh_index_offset material_index_offset
        skin_index_offset node_index_offset), slot.2))
  let other_skins := other.skins.map (fun skin =>
    { skin with
      bone_node_ids := skin.bone_node_ids.map conv
      node_id := conv skin.node_id })
  let other_animations := other.animations.map (fun animation =>
    { animation with
      channels := animation.channels.map (fun channel =>
        { channel with node_id := conv channel.node_id }) })
  { s with
    nodes := s.nodes ++ other_nodes
    skins := s.skins ++ other_skins
    animations := s.animations ++ other_animations }

/-- `Scene::new`: converts the indexed animations (channel targets become
generation-0 ids), adds every node descriptor through `add_node` (parent
indices become generation-0 ids), then builds each skin by finding the first
live node referencing it (`unwrap` panics when absent). -/
def new (nodes_desc : List IndexedGameNodeDesc) (indexed_skins : List IndexedSkin)
    (animations : List IndexedAnimation) : Panic Scene := do
  let converted_animations : List Animation := animations.map (fun indexed_animation =>
    { name := indexed_animation.name
      length_seconds := indexed_animation.length_seconds
      speed := 1
      channels := indexed_animation.channels.map (fun indexed_channel =>
        { node_id := ⟨indexed_channel.node_index, 0⟩
          property := indexed_channel.property
          interpolation_type := indexed_channel.interpolation_type
          keyframe_timings := indexed_channel.keyframe_timings
          keyframe_values := indexed_channel.keyframe_values })
      state := ⟨0, false, .Once⟩ })
  let scene0 : Scene :=
    { nodes := []
      empty_node_indices := []
      skins := []
      animations := converted_animations }
  let scene ← nodes_desc.foldlM (fun scene node_desc =>
    (scene.add_node
      { transform := node_desc.transform
        skin_index := node_desc.skin_index
        visual := node_desc.visual
        name := node_desc.name
        parent_id := node_desc.parent_index.map (⟨·, 0⟩) }).map Prod.fst) scene0
  let skins ← mapPanic (fun skin_index => do
    let indexed_skin ← Panic.ofOption (indexed_skins.get? skin_index)
    let node ← Panic.ofOption
      ((scene.live_nodes).find? (fun node => node.skin_index = some skin_index))
    pure { node_id := node.id
           bone_node_ids := indexed_skin.bone_node_indices.map (⟨·, 0⟩)
           bone_inverse_bind_matrices := indexed_skin.bone_inverse_bind_matrices
           bone_bounding_box_transforms := indexed_skin.bone_bounding_box_transforms
           : Skin }) (List.range indexed_skins.length)
  pure { scene with skins := skins }

end Scene

/-! ## Keyframe sampler (`animation.rs`) -/

/-- `animation.rs` `KeyframeTime`. -/
structure KeyframeTime where
  index : Nat
  time : ℚ
  deriving DecidableEq, Repr

/-- `get_nearby_keyframes`: previous is the last enumerated time `≤ t`, next
is the first enumerated time `> t`. -/
def get_nearby_keyframes (keyframe_times : List ℚ) (animation_time_seconds : ℚ) :
    Option KeyframeTime × Option KeyframeTime :=
  (((keyframe_times.enum.filter (fun p => decide (p.2 ≤ animation_time_seconds))).getLast?).map
     (fun p => KeyframeTime.mk p.1 p.2),
   (keyframe_times.enum.find? (fun p => decide (animation_time_seconds < p.2))).map
     (fun p => KeyframeTime.mk p.1 p.2))

/-- One cubic-spline keyframe record: `[in-tangent, value, out-tangent]`. -/
structure CubicKey (T : Type) where
  in_tangent : T
  value : T
  out_tangent : T
  deriving DecidableEq, Repr

/-- The `cast_slice::<_, [f32; 3]>` decode of a channel value buffer; panics
when the buffer is not a whole number of records (bytemuck
`OutputSliceWouldHaveSlop`). -/
def basic_vec3_values : List ℚ → Panic (List Vec3Q)
  | [] => .ok []
  | x :: y :: z :: rest => (basic_vec3_values rest).map (⟨x, y, z⟩ :: ·)
  | _ => .panicked

/-- The `cast_slice::<_, [[f32; 3]; 3]>` decode of a channel value buffer;
panics on a ragged buffer. -/
def cubic_vec3_values : List ℚ → Panic (List (CubicKey Vec3Q))
  | [] => .ok []
  | a1 :: a2 :: a3 :: b1 :: b2 :: b3 :: c1 :: c2 :: c3 :: rest =>
    (cubic_vec3_values rest).map (⟨⟨a1, a2, a3⟩, ⟨b1, b2, b3⟩, ⟨c1, c2, c3⟩⟩ :: ·)
  | _ => .panicked

/-- The `cast_slice::<_, [f32; 4]>` decode of a channel value buffer; panics
on a ragged buffer. -/
def basic_quat_values : List ℚ → Panic (List QuatQ)
  | [] => .ok []
  | x :: y :: z :: w :: rest => (basic_quat_values rest).map (⟨x, y, z, w⟩ :: ·)
  | _ => .panicked

/-- The `cast_slice::<_, [[f32; 4]; 3]>` decode of a channel value buffer;
panics on a ragged buffer. -/
def cubic_quat_values : List ℚ → Panic (List (CubicKey QuatQ))
  | [] => .ok []
  | a1 :: a2 :: a3 :: a4 :: b1 :: b2 :: b3 :: b4 :: c1 :: c2 :: c3 :: c4 :: rest =>
    (cubic_quat_values rest).map
      (⟨⟨a1, a2, a3, a4⟩, ⟨b1, b2, b3, b4⟩, ⟨c1, c2, c3, c4⟩⟩ :: ·)
  | _ => .panicked

/-- `math.rs` `lerp_vec`: `b * alpha + a * (1.0 - alpha)`. -/
def lerp_vec (a b : Vec3Q) (alpha : ℚ) : Vec3Q :=
  b * alpha + a * (1 - alpha)

/-- `do_cubic_interpolation`: the glTF cubic-Hermite basis. -/
def do_cubic_interpolation {T : Type} [Add T] [HMul T ℚ T]
    (previous_keyframe_value next_keyframe_value : CubicKey T)
    (keyframe_length interpolation_factor : ℚ) : T :=
  let t := interpolation_factor
  let t_2 := t * t
  let t_3 := t_2 * t
  let v_k := previous_keyframe_value.value
  let t_d := keyframe_length
  let b_k := previous_keyframe_value.out_tangent
  let v_k_1 := next_keyframe_value.value
  let a_k_1 := next_keyframe_value.in_tangent
  v_k * (2 * t_3 - 3 * t_2 + 1)
    + b_k * t_d * (t_3 - 2 * t_2 + t)
    + v_k_1 * (-2 * t_3 + 3 * t_2)
    + a_k_1 * t_d * (t_3 - t_2)

/-- `get_vec3_at_moment`.  Slice indexing into the decoded value arrays is
`listIndex` (panics out of bounds, like the source's `values[i]`). -/
def get_vec3_at_moment (channel : Channel) (animation_time_seconds : ℚ)
    (previous_keyframe next_keyframe : Option KeyframeTime) : Panic Vec3Q :=
  match previous_keyframe with
  | some previous_keyframe =>
    let next_and_factor : KeyframeTime × ℚ :=
      match next_keyframe with
      | some next_keyframe =>
        (next_keyframe,
         (animation_time_seconds - previous_keyframe.time) /
           (next_keyframe.time - previous_keyframe.time))
      | none => (previous_keyframe, 1)
    let next_keyframe := next_and_factor.1
    let interpolation_factor := next_and_factor.2
    match channel.interpolation_type with
    | .Linear => do
      let keyframe_values ← basic_vec3_values channel.keyframe_values
      let previous_keyframe_value ← listIndex keyframe_values previous_keyframe.index
      let next_keyframe_value ← listIndex keyframe_values next_keyframe.index
      pure (lerp_vec previous_keyframe_value next_keyframe_value interpolation_factor)
    | .Step => do
      let keyframe_values ← basic_vec3_values channel.keyframe_values
      listIndex keyframe_values previous_keyframe.index
    | .CubicSpline => do
      let keyframe_values ← cubic_vec3_values channel.keyframe_values
      let previous_keyframe_value ← listIndex keyframe_values previous_keyframe.index
      let next_keyframe_value ← listIndex keyframe_values next_keyframe.index
      let keyframe_length := next_keyframe.time - previous_keyframe.time
      pure (do_cubic_interpolation previous_keyframe_value next_keyframe_value
        keyframe_length interpolation_factor)
  | none =>
    match channel.interpolation_type with
    | .Linear => do
      let keyframe_values ← basic_vec3_values channel.keyframe_values
      listIndex keyframe_values 0
    | .Step => do
      let keyframe_values ← basic_vec3_values channel.keyframe_values
      listIndex keyframe_values 0
    | .CubicSpline => do
      let keyframe_values ← cubic_vec3_values channel.keyframe_values
      (listIndex keyframe_values 0).map (·.value)

/-- `get_quat_at_moment`.  `Quat::slerp` and `Quat::normalize` are operations
of the external `glam` library and are taken as function parameters. -/
def get_quat_at_moment (slerp : QuatQ → QuatQ → ℚ → QuatQ)
    (normalize : QuatQ → QuatQ) (channel : Channel) (animation_time_seconds : ℚ)
    (previous_keyframe next_keyframe : Option KeyframeTime) : Panic QuatQ :=
  let t := animation_time_seconds
  match previous_keyframe with
  | some previous_keyframe =>
    let next_and_factor : KeyframeTime × ℚ :=
      match next_keyframe with
      | some next_keyframe =>
        (next_keyframe,
         (t - previous_keyframe.time) / (next_keyframe.time - previous_keyframe.time))
      | none => (previous_keyframe, 1)
    let next_keyframe := next_and_factor.1
    let interpolation_factor := next_and_factor.2
    match channel.interpolation_type with
    | .Linear => do
      let keyframe_values ← basic_quat_values channel.keyframe_values
      let previous_keyframe_value ← listIndex keyframe_values previous_keyframe.index
      let next_keyframe_value ← listIndex keyframe_values next_keyframe.index
      pure (slerp previous_keyframe_value next_keyframe_value interpolation_factor)
    | .Step => do
      let keyframe_values ← basic_quat_values channel.keyframe_values
      listIndex keyframe_values previous_keyframe.index
    | .CubicSpline => do
      let keyframe_values ← cubic_quat_values channel.keyframe_values
      let previous_keyframe_value ← listIndex keyframe_values previous_keyframe.index
      let next_keyframe_value ← listIndex keyframe_values next_keyframe.index
      let keyframe_length := next_keyframe.time - previous_keyframe.time
      pure (normalize (do_cubic_interpolation previous_keyframe_value
        next_keyframe_value keyframe_length interpolation_factor))
  | none =>
    match channel.interpolation_type with
    | .Linear => do
      let keyframe_values ← basic_quat_values channel.keyframe_values
      listIndex keyframe_values 0
    | .Step => do
      let keyframe_values ← basic_quat_values channel.keyframe_values
      listIndex keyframe_values 0
    | .CubicSpline => do
      let keyframe_values ← cubic_quat_values channel.keyframe_values
      (listIndex keyframe_values 0).map (·.value)

/-! ## Animation driver (`step_animations`) -/

/-- Rounding toward zero, as Rust's float-to-float `%` uses
(`x % y = x - y * trunc(x / y)`). -/
def ratTrunc (q : ℚ) : ℤ :=
  if 0 ≤ q then ⌊q⌋ else ⌈q⌉

/-- Rust's `%` on `f32`: remainder with the dividend's sign. -/
def fmod (x y : ℚ) : ℚ :=
  x - y * (ratTrunc (x / y) : ℚ)

/-- The two external glam quaternion operations used by the sampler. -/
structure GlamOps where
  slerp : QuatQ → QuatQ → ℚ → QuatQ
  normalize : QuatQ → QuatQ

/-- The staged write payload (`Op` in `step_animations`). -/
inductive AnimOp where
  | translation (v : Vec3Q)
  | scale (v : Vec3Q)
  | rotation (q : QuatQ)
  deriving DecidableEq, Repr

/-- Steps 2–3 of the driver loop: advance `current_time_seconds` by
`dt * speed`; for `Once` past the length, reset to 0 and stop playing. -/
def advance_state (length_seconds speed : ℚ) (state : AnimationState) (dt : ℚ) :
    AnimationState :=
  let current_time_seconds := state.current_time_seconds + dt * speed
  if state.loop_type = .Once ∧ current_time_seconds > length_seconds then
    ⟨0, false, state.loop_type⟩
  else
    ⟨current_time_seconds, state.is_playing, state.loop_type⟩

/-- Step 4 of the driver loop: the evaluation time (`animation_time_seconds`
in the source).  The `forwards` test is `floor(ct / len) % 2 == 0`; Rust's
truncated `%` and `Int.emod` agree on the zero test. -/
def animation_time_seconds (length_seconds : ℚ) (state : AnimationState) : ℚ :=
  match state.loop_type with
  | .PingPong =>
    let forwards := ⌊state.current_time_seconds / length_seconds⌋ % 2 = 0
    if forwards then
      fmod state.current_time_seconds length_seconds
    else
      length_seconds - fmod state.current_time_seconds length_seconds
  | _ => fmod state.current_time_seconds length_seconds

/-- The per-channel body of the driver loop: sample at the evaluation time
and stage a write for translation/scale/rotation; other properties (morph
target weights) stage nothing. -/
def stage_channel (g : GlamOps) (t : ℚ) (channel : Channel) :
    Panic (Option (GameNodeId × AnimOp)) :=
  let keyframes := get_nearby_keyframes channel.keyframe_timings t
  match channel.property with
  | .Translation =>
    (get_vec3_at_moment channel t keyframes.1 keyframes.2).map
      (fun v => some (channel.node_id, .translation v))
  | .Scale =>
    (get_vec3_at_moment channel t keyframes.1 keyframes.2).map
      (fun v => some (channel.node_id, .scale v))
  | .Rotation =>
    (get_quat_at_moment g.slerp g.normalize channel t keyframes.1 keyframes.2).map
      (fun q => some (channel.node_id, .rotation q))
  | .MorphTargetWeights => .ok none

/-- The per-animation body of the driver loop: a non-playing animation is
skipped wholesale; a playing one advances its state and stages one write per
translation/scale/rotation channel at the evaluation time. -/
def step_animation (g : GlamOps) (animation : Animation) (dt : ℚ) :
    Panic (Animation × List (GameNodeId × AnimOp)) :=
  if animation.state.is_playing then
    let state := advance_state animation.length_seconds animation.speed
      animation.state dt
    let t := animation_time_seconds animation.length_seconds state
    (mapPanic (stage_channel g t) animation.channels).map
      (fun staged => ({ animation with state := state }, staged.filterMap id))
  else
    .ok (animation, [])

/-- The first phase of `step_animations`: step every animation in order,
collecting the updated animations and the concatenated staged writes. -/
def step_animations_staging (g : GlamOps) (animations : List Animation) (dt : ℚ) :
    Panic (List Animation × List (GameNodeId × AnimOp)) :=
  match animations with
  | [] => .ok ([], [])
  | animation :: rest => do
    let (animation, ops) ← step_animation g animation dt
    let (rest, rest_ops) ← step_animations_staging g rest dt
    pure (animation :: rest, ops ++ rest_ops)

/-- One staged write applied through `Scene::get_node_mut`: a stale target is
silently dropped; a live one has the corresponding transform component
replaced. -/
def apply_animation_op (s : Scene) (w : GameNodeId × AnimOp) : Panic Scene :=
  s.update_node w.1 (fun node =>
    { node with
      transform := match w.2 with
        | .translation v => node.transform.set_position v
        | .scale v => node.transform.set_scale v
        | .rotation q => node.transform.set_rotation q })

/-- The second phase of `step_animations`: apply the staged writes in order. -/
def apply_animation_ops (s : Scene) : List (GameNodeId × AnimOp) → Panic Scene
  | [] => .ok s
  | w :: rest => do
    let s ← apply_animation_op s w
    apply_animation_ops s rest

/-- `step_animations`: compute every staged write (first loop), then apply
them all (second loop). -/
def step_animations (g : GlamOps) (s : Scene) (dt : ℚ) : Panic Scene :=
  match step_animations_staging g s.animations dt with
  | .panicked => .panicked
  | .ok (animations, ops) => apply_animation_ops { s with animations := animations } ops

/-- The staged writes of one tick, as a function of the scene. -/
def staged_writes (g : GlamOps) (s : Scene) (dt : ℚ) :
    Panic (List (GameNodeId × AnimOp)) :=
  (step_animations_staging g s.animations dt).map Prod.snd

/-! ## Loader animation length (`gltf_loader.rs` `get_animations`) -/

/-- One step of Rust `Iterator::max_by(partial_cmp)`: the later element wins
ties. -/
def max_by_step (acc : Option ℚ) (x : ℚ) : Option ℚ :=
  match acc with
  | none => some x
  | some m => some (if m ≤ x then x else m)

/-- Rust `Iterator::max_by(partial_cmp)` over a list of `f32`s. -/
def max_by_f32 (l : List ℚ) : Option ℚ :=
  l.foldl max_by_step none

/-- The `length_seconds` computation of `get_animations`: map each channel's
timing array to its last entry (`last().unwrap()`), then take the maximum
(`max_by(...).unwrap()`).  Both unwraps panic on empty input. -/
def get_animation_length (channel_timings : List (List ℚ)) : Panic ℚ := do
  let lasts ← mapPanic (fun keyframe_times =>
    Panic.ofOption keyframe_times.getLast?) channel_timings
  Panic.ofOption (max_by_f32 lasts)

/-- The per-animation construction of `get_animations`, restricted to the
fields the length claim concerns: the animation record carries
`length_seconds` as computed by `get_animation_length` over its channels'
timing arrays. -/
def get_animations_entry (name : Option String) (channel_timings : List (List ℚ))
    (channels : List IndexedChannel) : Panic IndexedAnimation := do
  let length_seconds ← get_animation_length channel_timings
  pure ⟨name, length_seconds, channels⟩

/-! ## Reachable scenes and the free-list invariant -/

/-- Scenes reachable from `Scene::new` by `add_node`, `remove_node` and
`merge_scene` (the merged-in scene being itself reachable). -/
inductive Reachable : Scene → Prop where
  | new : ∀ (nodes_desc : List IndexedGameNodeDesc) (indexed_skins : List IndexedSkin)
      (animations : List IndexedAnimation) (s : Scene),
      Scene.new nodes_desc indexed_skins animations = .ok s → Reachable s
  | add : ∀ (s : Scene) (desc : GameNodeDesc) (s' : Scene) (n : GameNode),
      Reachable s → s.add_node desc = .ok (s', n) → Reachable s'
  | remove : ∀ (s : Scene) (id : GameNodeId) (s' : Scene),
      Reachable s → s.remove_node id = .ok s' → Reachable s'
  | merge : ∀ (s other : Scene) (mesh_index_offset material_index_offset : Nat),
      Reachable s → Reachable other →
      Reachable (s.merge_scene mesh_index_offset material_index_offset other)

/-- The free-list invariant: no duplicate indices, and every free-list index
denotes an in-bounds, empty slot. -/
def free_list_ok (s : Scene) : Prop :=
  s.empty_node_indices.Nodup ∧
  ∀ i ∈ s.empty_node_indices, ∃ g, s.nodes.get? i = some (none, g)

/-- Every live node's stored id carries its own slot index. -/
def nodes_well_indexed (s : Scene) : Prop :=
  ∀ i n g, s.nodes.get? i = some (some n, g) → n.id.index = i

/-! ## Concrete scenes used by witnesses and counterexamples -/

/-- `GameNodeDesc::default()`. -/
def descDefault : GameNodeDesc :=
  ⟨Transform.IDENTITY, none, none, none, none⟩

/-- The scene produced by `Scene::new(vec![], vec![], vec![])`. -/
def sceneEmpty : Scene := ⟨[], [], [], []⟩

/-- A default-content node sitting at slot 0, generation 0. -/
def nodeW : GameNode :=
  ⟨Transform.IDENTITY, none, none, none, none, ⟨0, 0⟩⟩

/-- A one-node scene holding `nodeW`. -/
def sceneW : Scene := ⟨[(some nodeW, 0)], [], [], []⟩

/-- The scene left by add → remove → add → remove on the empty scene: one
empty slot at generation 1, free list `[0]`. -/
def sceneStaleSlot : Scene := ⟨[(none, 1)], [0], [], []⟩

/-- The scene left by add → remove on the empty scene. -/
def sceneRemoved : Scene := ⟨[(none, 0)], [0], [], []⟩

/-- A default-content node at slot 0, generation 1 (a reused slot). -/
def nodeGen1 : GameNode :=
  ⟨Transform.IDENTITY, none, none, none, none, ⟨0, 1⟩⟩

/-- The scene left by add → remove → add on the empty scene: `nodeGen1` live
in the reused slot 0. -/
def sceneGen1 : Scene := ⟨[(some nodeGen1, 1)], [], [], []⟩

/-- The orphan node of the C3 scenario: live at slot 1, parent pointing at
the emptied slot 0. -/
def nodeOrphan : GameNode :=
  ⟨Transform.IDENTITY, none, none, none, some ⟨0, 0⟩, ⟨1, 0⟩⟩

/-- The scene left by add A → add B (child of A) → remove A. -/
def sceneOrphan : Scene := ⟨[(none, 0), (some nodeOrphan, 0)], [0], [], []⟩

/-- A concrete instantiation of the external glam operations: a spherical
interpolation returns its first endpoint at matching endpoints, which is all
the boundary statements use. -/
def glamTrivial : GlamOps := ⟨fun a _ _ => a, id⟩

/-- A stopped animation. -/
def animStopped : Animation := ⟨none, 1, 1, [], ⟨0, false, .Once⟩⟩

/-- A two-keyframe linear translation channel (values `(1,2,3)`, `(4,5,6)` at
times 0 and 1). -/
def channelVec3W : Channel := ⟨⟨0, 0⟩, .Translation, .Linear, [0, 1], [1, 2, 3, 4, 5, 6]⟩

/-- A two-keyframe linear rotation channel (identity and a half-turn). -/
def channelQuatW : Channel := ⟨⟨0, 0⟩, .Rotation, .Linear, [0, 1], [0, 0, 0, 1, 0, 0, 1, 0]⟩

/-- Chain scenario root A at the origin. -/
def nodeA : GameNode := ⟨Transform.IDENTITY, none, none, none, none, ⟨0, 0⟩⟩

/-- Chain scenario node B, child of A, at position `(1,0,0)`. -/
def nodeB : GameNode :=
  ⟨⟨⟨1, 0, 0⟩, QuatQ.identity, Vec3Q.one⟩, none, none, none, some ⟨0, 0⟩, ⟨1, 0⟩⟩

/-- Chain scenario node C, child of B, at position `(0,1,0)`. -/
def nodeC : GameNode :=
  ⟨⟨⟨0, 1, 0⟩, QuatQ.identity, Vec3Q.one⟩, none, none, none, some ⟨1, 0⟩, ⟨2, 0⟩⟩

/-- The A → B → C chain scene. -/
def sceneChainW : Scene :=
  ⟨[(some nodeA, 0), (some nodeB, 0), (some nodeC, 0)], [], [], []⟩

/-- A playing wrap-looping animation driving `channelVec3W`. -/
def animPlayingW : Animation := ⟨none, 10, 1, [channelVec3W], ⟨0, true, .Wrap⟩⟩

/-- A scene whose node sits at the origin, with `animPlayingW`. -/
def sceneAnimA : Scene := ⟨[(some nodeW, 0)], [], [], [animPlayingW]⟩

/-- The same scene except the node's transform differs arbitrarily. -/
def sceneAnimB : Scene :=
  ⟨[(some { nodeW with transform := ⟨⟨5, 5, 5⟩, ⟨0, 1, 0, 0⟩, ⟨2, 2, 2⟩⟩ }, 0)],
    [], [], [animPlayingW]⟩

/-!
## Theorems

Batteries marks the rational operations `@[irreducible]`; re-marking them
semireducible lets `decide` evaluate the embedding on concrete scenes (the
kernel ignores reducibility annotations, so proofs are unaffected).
-/

attribute [local semireducible] Rat.add Rat.sub Rat.mul Rat.inv

theorem lt_length_of_get?_eq_some {l : List α} {i : Nat} {a : α}
    (h : l.get? i = some a) : i < l.length := by
  by_contra hle
  rw [List.get?_eq_none.mpr (Nat.le_of_not_lt hle)] at h
  cases h

/-- `get_node` returns a node exactly when the slot at the id's index holds
that node under the id's generation. -/
theorem Scene.get_node_ok_some_iff (s : Scene) (id : GameNodeId) (n : GameNode) :
    s.get_node id = .ok (some n) ↔ s.nodes.get? id.index = some (some n, id.gen) := by
  unfold Scene.get_node
  cases h : s.nodes.get? id.index with
  | none => simp
  | some slot =>
    obtain ⟨a, g⟩ := slot
    by_cases hg : g = id.gen <;> simp [hg]

theorem Scene.get_node_of_slot (s : Scene) (id : GameNodeId) (a : Option GameNode)
    (g : Nat) (h : s.nodes.get? id.index = some (a, g)) :
    s.get_node id = .ok (if g = id.gen then a else none) := by
  unfold Scene.get_node
  rw [h]

/-- C1.  Generation discrimination: `get_node(id)` returns a node exactly
when the slot at `id`'s index holds it with `id`'s generation; and after
`remove_node` of a live id, the next `add_node` reuses that slot with the
generation incremented by exactly one, the old id looks up to `None` and the
new id looks up to the new node. -/
theorem claim_C1 :
    (∀ (s : Scene) (id : GameNodeId) (n : GameNode),
      s.get_node id = .ok (some n) ↔
        s.nodes.get? id.index = some (some n, id.gen)) ∧
    (∀ (s : Scene) (id : GameNodeId) (n : GameNode) (desc : GameNodeDesc),
      s.get_node id = .ok (some n) → n.id = id →
      ∃ (s' s'' : Scene) (n' : GameNode),
        s.remove_node id = .ok s' ∧
        s'.add_node desc = .ok (s'', n') ∧
        n'.id = ⟨id.index, id.gen + 1⟩ ∧
        s''.get_node id = .ok none ∧
        s''.get_node n'.id = .ok (some n')) := by
  refine ⟨fun s id n => Scene.get_node_ok_some_iff s id n, ?_⟩
  intro s id n desc hlive hid
  have hslot : s.nodes.get? id.index = some (some n, id.gen) :=
    (Scene.get_node_ok_some_iff s id n).mp hlive
  have hlt : id.index < s.nodes.length := lt_length_of_get?_eq_some hslot
  refine ⟨{ s with
              nodes := s.nodes.set id.index (none, id.gen)
              empty_node_indices := s.empty_node_indices ++ [id.index] },
          { s with
              nodes := (s.nodes.set id.index (none, id.gen)).set id.index
                (some ⟨desc.transform, desc.skin_index, desc.visual, desc.name,
                       desc.parent_id, ⟨id.index, id.gen + 1⟩⟩, id.gen + 1)
              empty_node_indices := (s.empty_node_indices ++ [id.index]).dropLast },
          ⟨desc.transform, desc.skin_index, desc.visual, desc.name,
            desc.parent_id, ⟨id.index, id.gen + 1⟩⟩, ?_, ?_, rfl, ?_, ?_⟩
  · unfold Scene.remove_node
    rw [hlive]
    rw [List.get?_eq_getElem?] at hslot
    simp [hid, hslot]
  · have hset : (s.nodes.set id.index (none, id.gen)).get? id.index =
        some (none, id.gen) := by
      rw [List.get?_eq_getElem?]
      simp [List.getElem?_set_self, hlt]
    unfold Scene.add_node
    rw [List.get?_eq_getElem?] at hset
    simp [List.getLast?_concat, hset, List.dropLast_concat]
  · have hset2 : ((s.nodes.set id.index (none, id.gen)).set id.index
        (some ⟨desc.transform, desc.skin_index, desc.visual, desc.name,
               desc.parent_id, ⟨id.index, id.gen + 1⟩⟩, id.gen + 1)).get? id.index =
        some (some ⟨desc.transform, desc.skin_index, desc.visual, desc.name,
               desc.parent_id, ⟨id.index, id.gen + 1⟩⟩, id.gen + 1) := by
      rw [List.set_set, List.get?_eq_getElem?]
      simp [List.getElem?_set_self, hlt]
    rw [Scene.get_node_of_slot _ _ _ _ hset2]
    simp [Nat.succ_ne_self]
  · have hset2 : ((s.nodes.set id.index (none, id.gen)).set id.index
        (some ⟨desc.transform, desc.skin_index, desc.visual, desc.name,
               desc.parent_id, ⟨id.index, id.gen + 1⟩⟩, id.gen + 1)).get? id.index =
        some (some ⟨desc.transform, desc.skin_index, desc.visual, desc.name,
               desc.parent_id, ⟨id.index, id.gen + 1⟩⟩, id.gen + 1) := by
      rw [List.set_set, List.get?_eq_getElem?]
      simp [List.getElem?_set_self, hlt]
    rw [Scene.get_node_of_slot _ _ _ _ hset2]
    simp

/-- C1 witness: the one-node scene; removing its node and adding a fresh
descriptor reuses slot 0 at generation 1. -/
theorem claim_C1_witness :
    (sceneW.get_node ⟨0, 0⟩ = .ok (some nodeW) ↔
      sceneW.nodes.get? 0 = some (some nodeW, 0)) ∧
    (∃ (s' s'' : Scene) (n' : GameNode),
      sceneW.remove_node ⟨0, 0⟩ = .ok s' ∧
      s'.add_node descDefault = .ok (s'', n') ∧
      n'.id = ⟨0, 1⟩ ∧
      s''.get_node ⟨0, 0⟩ = .ok none ∧
      s''.get_node n'.id = .ok (some n')) :=
  ⟨claim_C1.1 sceneW ⟨0, 0⟩ nodeW,
   claim_C1.2 sceneW ⟨0, 0⟩ nodeW descDefault (by decide) (by decide)⟩

/-- C2 (amended).  Lookups on a stale in-range id — slot present but with a
different stored generation — degrade gracefully: `get_node` and
`get_node_mut` return `None` and `remove_node` leaves the scene unchanged,
none of them panicking. -/
theorem claim_C2 :
    ∀ (s : Scene) (id : GameNodeId) (a : Option GameNode) (g : Nat),
      s.nodes.get? id.index = some (a, g) → g ≠ id.gen →
      s.get_node id = .ok none ∧
      s.get_node_mut id = .ok none ∧
      s.remove_node id = .ok s := by
  intro s id a g h hg
  have h1 : s.get_node id = .ok none := by
    unfold Scene.get_node
    rw [h]
    simp [hg]
  refine ⟨h1, ?_, ?_⟩
  · unfold Scene.get_node_mut
    rw [h]
    simp [hg]
  · unfold Scene.remove_node
    rw [h1]

/-- C2 witness: the stale id `(0, 0)` against the reused-and-emptied slot of
`sceneStaleSlot` (stored generation 1). -/
theorem claim_C2_witness :
    sceneStaleSlot.get_node ⟨0, 0⟩ = .ok none ∧
    sceneStaleSlot.get_node_mut ⟨0, 0⟩ = .ok none ∧
    sceneStaleSlot.remove_node ⟨0, 0⟩ = .ok sceneStaleSlot :=
  claim_C2 sceneStaleSlot ⟨0, 0⟩ none 1 (by decide) (by decide)

/-- C2 counterexample: the claim's "never panics" fails.  On the empty scene
an out-of-range id makes `get_node` panic (raw slot indexing), and on a
reachable scene (add → remove → add → remove from empty, shown by the middle
conjunct) the stale id `(0, 0)` makes `get_global_transform_for_node` panic
(the transform fold `unwrap`s the emptied slot) instead of degrading to the
identity transform. -/
theorem claim_C2_counterexample :
    sceneEmpty.get_node ⟨0, 0⟩ = .panicked ∧
    (Panic.bind (sceneEmpty.add_node descDefault) (fun p =>
      Panic.bind (p.1.remove_node p.2.id) (fun s2 =>
        Panic.bind (s2.add_node descDefault) (fun q =>
          q.1.remove_node q.2.id)))) = .ok sceneStaleSlot ∧
    sceneStaleSlot.get_global_transform_for_node ⟨0, 0⟩ = .panicked := by
  refine ⟨by decide, by decide, ?_⟩
  decide

/-- C3.  The claim says an orphan's transform lookup returns normally; the
code panics instead.  Concretely: add root A, add child B of A, remove A
(first conjunct shows this chain yields `sceneOrphan`); B is still live
(second conjunct), yet `get_global_transform_for_node` on B panics, because
the ancestry iterator yields A's id before discovering it is gone and the
transform fold `unwrap`s A's emptied slot. -/
theorem claim_C3 :
    (Panic.bind (sceneEmpty.add_node descDefault) (fun p =>
      Panic.bind (p.1.add_node { descDefault with parent_id := some p.2.id }) (fun q =>
        q.1.remove_node p.2.id))) = .ok sceneOrphan ∧
    sceneOrphan.get_node ⟨1, 0⟩ = .ok (some nodeOrphan) ∧
    sceneOrphan.get_global_transform_for_node ⟨1, 0⟩ = .panicked := by
  refine ⟨by decide, by decide, ?_⟩
  decide

/-- C4 (amended).  `merge_scene` rewrites every embedded id by the node-index
offset but resets generations to 0, while appended slots keep their stored
generations; therefore the rewritten references resolve — each node live in
the other scene resolves, at its converted id, to its rewritten node, and
channel/skin references are converted by the same offset — provided every
slot generation of the merged-in scene is 0 (a freshly loaded scene). -/
theorem claim_C4 :
    ∀ (s other : Scene) (mesh_index_offset material_index_offset : Nat),
      (∀ slot ∈ other.nodes, slot.2 = 0) →
      (∀ (id : GameNodeId) (n : GameNode),
        other.get_node id = .ok (some n) →
        (s.merge_scene mesh_index_offset material_index_offset other).get_node
            (convert_node_id s.nodes.length id) =
          .ok (some (merge_rewrite_node mesh_index_offset material_index_offset
            s.skins.length s.nodes.length n))) ∧
      ((s.merge_scene mesh_index_offset material_index_offset other).animations =
        s.animations ++ other.animations.map (fun animation =>
          { animation with channels := animation.channels.map (fun channel =>
              { channel with
                node_id := convert_node_id s.nodes.length channel.node_id }) })) ∧
      ((s.merge_scene mesh_index_offset material_index_offset other).skins =
        s.skins ++ other.skins.map (fun skin =>
          { skin with
            bone_node_ids := skin.bone_node_ids.map (convert_node_id s.nodes.length)
            node_id := convert_node_id s.nodes.length skin.node_id })) := by
  intro s other mesh_index_offset material_index_offset hgen
  refine ⟨?_, rfl, rfl⟩
  intro id n hn
  have hslot : other.nodes.get? id.index = some (some n, id.gen) :=
    (Scene.get_node_ok_some_iff other id n).mp hn
  have hmem : (some n, id.gen) ∈ other.nodes := List.get?_mem hslot
  have hg0 : id.gen = 0 := hgen _ hmem
  have hslot2 : (s.merge_scene mesh_index_offset material_index_offset other).nodes.get?
      (convert_node_id s.nodes.length id).index =
      some (some (merge_rewrite_node mesh_index_offset material_index_offset
        s.skins.length s.nodes.length n), id.gen) := by
    rw [List.get?_eq_getElem?] at hslot ⊢
    show (s.nodes ++ _)[id.index + s.nodes.length]? = _
    rw [List.getElem?_append_right (Nat.le_add_left s.nodes.length id.index)]
    simp [hslot, Nat.add_sub_cancel]
  rw [Scene.get_node_of_slot _ _ _ _ hslot2]
  simp [convert_node_id, hg0]

/-- C4 witness: merging the one-node scene into itself; the node live at
`(0, 0)` resolves after the merge at the converted id `(1, 0)` to its
rewritten copy. -/
theorem claim_C4_witness :
    (sceneW.merge_scene 0 0 sceneW).get_node ⟨1, 0⟩ =
      .ok (some (merge_rewrite_node 0 0 0 1 nodeW)) :=
  (claim_C4 sceneW sceneW 0 0 (by decide)).1 ⟨0, 0⟩ nodeW (by decide)

/-- C4 counterexample: the claim as stated fails once a slot generation is
non-zero.  The scene built by add → remove → add (first conjunct) holds
`nodeGen1` live at id `(0, 1)` (second conjunct); merging it into the empty
scene rewrites that id to `(0, 0)` while the appended slot keeps generation
1, so `get_node` on the rewritten id returns `None` rather than the node. -/
theorem claim_C4_counterexample :
    (Panic.bind (sceneEmpty.add_node descDefault) (fun p =>
      Panic.bind (p.1.remove_node p.2.id) (fun s2 =>
        s2.add_node descDefault))) = .ok (sceneGen1, nodeGen1) ∧
    sceneGen1.get_node ⟨0, 1⟩ = .ok (some nodeGen1) ∧
    (sceneEmpty.merge_scene 0 0 sceneGen1).get_node
      (convert_node_id sceneEmpty.nodes.length ⟨0, 1⟩) = .ok none := by
  exact ⟨by decide, by decide, by decide⟩

theorem fmod_of_nonneg (x y : ℚ) (hx : 0 ≤ x) (hy : 0 < y) :
    fmod x y = x - y * ⌊x / y⌋ := by
  unfold fmod ratTrunc
  rw [if_pos (div_nonneg hx hy.le)]

/-- C5.  For a playing animation: the advanced time is the old time plus
`dt * speed`, reset to 0 with `is_playing := false` when a `Once` animation
passes its length; the evaluation time is `current_time mod length` for
`Once`/`Wrap` and for `PingPong` depends on the parity of
`⌊current_time / length⌋` (with the spec's `length = 2`, `current_time = 3`
example evaluating to 1); a non-playing animation is left untouched and
stages nothing; and a playing animation's staged writes are sampled at the
evaluation time of its advanced state. -/
theorem claim_C5 :
    (∀ (length_seconds speed : ℚ) (st : AnimationState) (dt : ℚ),
      (st.loop_type = .Once ∧ st.current_time_seconds + dt * speed > length_seconds →
        advance_state length_seconds speed st dt = ⟨0, false, st.loop_type⟩) ∧
      (¬(st.loop_type = .Once ∧ st.current_time_seconds + dt * speed > length_seconds) →
        advance_state length_seconds speed st dt =
          ⟨st.current_time_seconds + dt * speed, st.is_playing, st.loop_type⟩)) ∧
    (∀ (length_seconds : ℚ) (st : AnimationState),
      0 < length_seconds → 0 ≤ st.current_time_seconds →
      ((st.loop_type = .Once ∨ st.loop_type = .Wrap) →
        animation_time_seconds length_seconds st =
          st.current_time_seconds -
            length_seconds * ⌊st.current_time_seconds / length_seconds⌋) ∧
      (st.loop_type = .PingPong →
        (Even ⌊st.current_time_seconds / length_seconds⌋ →
          animation_time_seconds length_seconds st =
            st.current_time_seconds -
              length_seconds * ⌊st.current_time_seconds / length_seconds⌋) ∧
        (¬Even ⌊st.current_time_seconds / length_seconds⌋ →
          animation_time_seconds length_seconds st =
            length_seconds - (st.current_time_seconds -
              length_seconds * ⌊st.current_time_seconds / length_seconds⌋)))) ∧
    (animation_time_seconds 2 ⟨3, true, .PingPong⟩ = 1) ∧
    (∀ (g : GlamOps) (a : Animation) (dt : ℚ),
      a.state.is_playing = false → step_animation g a dt = .ok (a, [])) ∧
    (∀ (g : GlamOps) (a : Animation) (dt : ℚ),
      a.state.is_playing = true →
      step_animation g a dt =
        (mapPanic (stage_channel g (animation_time_seconds a.length_seconds
            (advance_state a.length_seconds a.speed a.state dt))) a.channels).map
          (fun staged =>
            ({ a with state := advance_state a.length_seconds a.speed a.state dt },
             staged.filterMap id))) := by
  refine ⟨?_, ?_, by decide, ?_, ?_⟩
  · intro length_seconds speed st dt
    constructor
    · intro h
      unfold advance_state
      rw [if_pos h]
    · intro h
      unfold advance_state
      rw [if_neg h]
  · intro length_seconds st hlen hct
    have hfmod : fmod st.current_time_seconds length_seconds =
        st.current_time_seconds -
          length_seconds * ⌊st.current_time_seconds / length_seconds⌋ :=
      fmod_of_nonneg _ _ hct hlen
    constructor
    · rintro (h | h) <;> (unfold animation_time_seconds; rw [h]; exact hfmod)
    · intro h
      unfold animation_time_seconds
      rw [h]
      constructor
      · intro heven
        rw [if_pos (Int.even_iff.mp heven)]
        exact hfmod
      · intro hodd
        rw [if_neg (fun h0 => hodd (Int.even_iff.mpr h0)), hfmod]
  · intro g a dt h
    unfold step_animation
    rw [h]
    simp
  · intro g a dt h
    unfold step_animation
    rw [h]
    simp

/-- C5 witness: the state machine at concrete inputs — a `Once` animation of
length 2 stepped from time 1 by `dt = 2` resets and stops; a `Wrap` one
advances to 3 and evaluates at `3 mod 2 = 1`; the spec's `PingPong` example
evaluates to 1; the stopped animation is untouched; and a playing animation's
step is its staged sampling at the advanced state. -/
theorem claim_C5_witness :
    advance_state 2 1 ⟨1, true, .Once⟩ 2 = ⟨0, false, .Once⟩ ∧
    advance_state 2 1 ⟨1, true, .Wrap⟩ 2 = ⟨3, true, .Wrap⟩ ∧
    animation_time_seconds 2 ⟨3, true, .Wrap⟩ = 1 ∧
    animation_time_seconds 2 ⟨3, true, .PingPong⟩ = 1 ∧
    step_animation glamTrivial animStopped 1 = .ok (animStopped, []) ∧
    step_animation glamTrivial animPlayingW 1 =
      (mapPanic (stage_channel glamTrivial
          (animation_time_seconds animPlayingW.length_seconds
            (advance_state animPlayingW.length_seconds animPlayingW.speed
              animPlayingW.state 1))) animPlayingW.channels).map
        (fun staged =>
          ({ animPlayingW with
              state := advance_state animPlayingW.length_seconds animPlayingW.speed
                animPlayingW.state 1 },
           staged.filterMap id)) := by
  refine ⟨(claim_C5.1 2 1 ⟨1, true, .Once⟩ 2).1 (by decide),
          ((claim_C5.1 2 1 ⟨1, true, .Wrap⟩ 2).2 (by decide)).trans (by decide),
          (((claim_C5.2.1 2 ⟨3, true, .Wrap⟩ (by decide) (by decide)).1
            (Or.inr rfl)).trans (by decide)),
          claim_C5.2.2.1,
          claim_C5.2.2.2.1 glamTrivial animStopped 1 (by decide),
          claim_C5.2.2.2.2 glamTrivial animPlayingW 1 (by decide)⟩

theorem snd_mem_of_mem_enum {l : List α} {q : ℕ × α} (h : q ∈ l.enum) : q.2 ∈ l :=
  List.get?_mem (by rw [List.get?_eq_getElem?]; exact List.mem_enum_iff_getElem?.mp h)

theorem nearby_fst_before_first (times : List ℚ) (t : ℚ)
    (h : ∀ x ∈ times, t < x) : (get_nearby_keyframes times t).1 = none := by
  show ((times.enum.filter _).getLast?).map _ = none
  rw [List.filter_eq_nil_iff.mpr ?_]
  · rfl
  · intro a ha
    simp only [decide_eq_true_eq]
    exact not_le.mpr (h a.2 (snd_mem_of_mem_enum ha))

theorem nearby_snd_at_or_after_last (times : List ℚ) (t : ℚ)
    (h : ∀ x ∈ times, x ≤ t) : (get_nearby_keyframes times t).2 = none := by
  show (times.enum.find? _).map _ = none
  rw [List.find?_eq_none.mpr ?_]
  · rfl
  · intro q hq
    simp only [decide_eq_true_eq]
    exact not_lt.mpr (h q.2 (snd_mem_of_mem_enum hq))

theorem nearby_fst_at_or_after_last (times : List ℚ) (t : ℚ) (hne : times ≠ [])
    (h : ∀ x ∈ times, x ≤ t) :
    (get_nearby_keyframes times t).1 =
      some ⟨times.length - 1, times.getLast hne⟩ := by
  show ((times.enum.filter _).getLast?).map _ = _
  rw [List.filter_eq_self.mpr ?_]
  · rw [List.getLast?_eq_getElem?, List.enum_length, List.getElem?_enum,
      ← List.getLast?_eq_getElem?, List.getLast?_eq_getLast times hne]
    rfl
  · intro a ha
    simp only [decide_eq_true_eq]
    exact h a.2 (snd_mem_of_mem_enum ha)

theorem lerp_vec_self (v : Vec3Q) : lerp_vec v v 1 = v := by
  obtain ⟨x, y, z⟩ := v
  show Vec3Q.mk (x * 1 + x * (1 - 1)) (y * 1 + y * (1 - 1)) (z * 1 + z * (1 - 1)) = _
  simp only [Vec3Q.mk.injEq]
  refine ⟨by ring, by ring, by ring⟩

@[simp] theorem Panic.ok_bind (a : α) (f : α → Panic β) :
    (Panic.ok a >>= f) = f a := rfl

@[simp] theorem Panic.pure_eq_ok (a : α) : (pure a : Panic α) = Panic.ok a := rfl

@[simp] theorem Panic.ofOption_some (a : α) : Panic.ofOption (some a) = .ok a := rfl

@[simp] theorem Panic.ofOption_none : Panic.ofOption (none : Option α) = .panicked := rfl

@[simp] theorem Panic.map_ok' (f : α → β) (a : α) :
    (f <$> Panic.ok a) = Panic.ok (f a) := rfl

/-- C6.  Sampler boundary behavior, for channels whose value buffer decodes
successfully (is a whole number of records — otherwise the `cast_slice`
panics before any keyframe logic runs).  Before the first keyframe (previous
is `None`, which covers the empty timing array), sampling returns the first
decoded value — for cubic mode its middle/"value" slot — whatever the
interpolation mode; at or after the last keyframe, `Step` and `Linear`
sampling return the last decoded value (the previous keyframe is reused as
next with factor 1, and a spherical interpolation with equal endpoints
returns that endpoint). -/
theorem claim_C6 :
    (∀ (channel : Channel) (t : ℚ),
      (∀ x ∈ channel.keyframe_timings, t < x) →
      (∀ vs v0, basic_vec3_values channel.keyframe_values = .ok vs →
        vs.get? 0 = some v0 →
        channel.interpolation_type = .Linear ∨ channel.interpolation_type = .Step →
        get_vec3_at_moment channel t
          (get_nearby_keyframes channel.keyframe_timings t).1
          (get_nearby_keyframes channel.keyframe_timings t).2 = .ok v0) ∧
      (∀ ks k0, cubic_vec3_values channel.keyframe_values = .ok ks →
        ks.get? 0 = some k0 →
        channel.interpolation_type = .CubicSpline →
        get_vec3_at_moment channel t
          (get_nearby_keyframes channel.keyframe_timings t).1
          (get_nearby_keyframes channel.keyframe_timings t).2 = .ok k0.value) ∧
      (∀ (slerp : QuatQ → QuatQ → ℚ → QuatQ) (normalize : QuatQ → QuatQ) qs q0,
        basic_quat_values channel.keyframe_values = .ok qs →
        qs.get? 0 = some q0 →
        channel.interpolation_type = .Linear ∨ channel.interpolation_type = .Step →
        get_quat_at_moment slerp normalize channel t
          (get_nearby_keyframes channel.keyframe_timings t).1
          (get_nearby_keyframes channel.keyframe_timings t).2 = .ok q0) ∧
      (∀ (slerp : QuatQ → QuatQ → ℚ → QuatQ) (normalize : QuatQ → QuatQ) ks k0,
        cubic_quat_values channel.keyframe_values = .ok ks →
        ks.get? 0 = some k0 →
        channel.interpolation_type = .CubicSpline →
        get_quat_at_moment slerp normalize channel t
          (get_nearby_keyframes channel.keyframe_timings t).1
          (get_nearby_keyframes channel.keyframe_timings t).2 = .ok k0.value)) ∧
    (∀ (channel : Channel) (t : ℚ) (hne : channel.keyframe_timings ≠ []),
      (∀ x ∈ channel.keyframe_timings, x ≤ t) →
      (∀ vs vL, basic_vec3_values channel.keyframe_values = .ok vs →
        vs.get? (channel.keyframe_timings.length - 1) = some vL →
        channel.interpolation_type = .Linear ∨ channel.interpolation_type = .Step →
        get_vec3_at_moment channel t
          (get_nearby_keyframes channel.keyframe_timings t).1
          (get_nearby_keyframes channel.keyframe_timings t).2 = .ok vL) ∧
      (∀ (slerp : QuatQ → QuatQ → ℚ → QuatQ) (normalize : QuatQ → QuatQ) qs qL,
        basic_quat_values channel.keyframe_values = .ok qs →
        qs.get? (channel.keyframe_timings.length - 1) = some qL →
        (channel.interpolation_type = .Step →
          get_quat_at_moment slerp normalize channel t
            (get_nearby_keyframes channel.keyframe_timings t).1
            (get_nearby_keyframes channel.keyframe_timings t).2 = .ok qL) ∧
        (channel.interpolation_type = .Linear → (∀ q, slerp q q 1 = q) →
          get_quat_at_moment slerp normalize channel t
            (get_nearby_keyframes channel.keyframe_timings t).1
            (get_nearby_keyframes channel.keyframe_timings t).2 = .ok qL))) := by
  constructor
  · intro channel t hbefore
    have h1 := nearby_fst_before_first channel.keyframe_timings t hbefore
    refine ⟨?_, ?_, ?_, ?_⟩
    · intro vs v0 hdec hv0 hmode
      rw [h1]
      rw [List.get?_eq_getElem?] at hv0
      rcases hmode with hm | hm <;>
        simp [get_vec3_at_moment, hm, hdec, listIndex, Panic.ofOption, hv0]
    · intro ks k0 hdec hk0 hm
      rw [h1]
      rw [List.get?_eq_getElem?] at hk0
      simp [get_vec3_at_moment, hm, hdec, listIndex, Panic.ofOption, hk0, Panic.map]
    · intro slerp normalize qs q0 hdec hq0 hmode
      rw [h1]
      rw [List.get?_eq_getElem?] at hq0
      rcases hmode with hm | hm <;>
        simp [get_quat_at_moment, hm, hdec, listIndex, Panic.ofOption, hq0]
    · intro slerp normalize ks k0 hdec hk0 hm
      rw [h1]
      rw [List.get?_eq_getElem?] at hk0
      simp [get_quat_at_moment, hm, hdec, listIndex, Panic.ofOption, hk0, Panic.map]
  · intro channel t hne hafter
    have h1 := nearby_fst_at_or_after_last channel.keyframe_timings t hne hafter
    have h2 := nearby_snd_at_or_after_last channel.keyframe_timings t hafter
    constructor
    · intro vs vL hdec hvL hmode
      rw [h1, h2]
      rw [List.get?_eq_getElem?] at hvL
      rcases hmode with hm | hm
      · simp [get_vec3_at_moment, hm, hdec, listIndex, Panic.ofOption, hvL,
          lerp_vec_self]
      · simp [get_vec3_at_moment, hm, hdec, listIndex, Panic.ofOption, hvL]
    · intro slerp normalize qs qL hdec hqL
      constructor
      · intro hm
        rw [h1, h2]
        rw [List.get?_eq_getElem?] at hqL
        simp [get_quat_at_moment, hm, hdec, listIndex, Panic.ofOption, hqL]
      · intro hm hslerp
        rw [h1, h2]
        rw [List.get?_eq_getElem?] at hqL
        simp [get_quat_at_moment, hm, hdec, listIndex, Panic.ofOption, hqL,
          hslerp qL]

/-- C6 witness: the two-keyframe channels (whose buffers decode exactly)
sampled at `t = -1` (before the first keyframe) return the first value, and
at `t = 2` (after the last) return the last value, for vectors and
rotations. -/
theorem claim_C6_witness :
    get_vec3_at_moment channelVec3W (-1)
      (get_nearby_keyframes channelVec3W.keyframe_timings (-1)).1
      (get_nearby_keyframes channelVec3W.keyframe_timings (-1)).2 = .ok ⟨1, 2, 3⟩ ∧
    get_vec3_at_moment channelVec3W 2
      (get_nearby_keyframes channelVec3W.keyframe_timings 2).1
      (get_nearby_keyframes channelVec3W.keyframe_timings 2).2 = .ok ⟨4, 5, 6⟩ ∧
    get_quat_at_moment glamTrivial.slerp glamTrivial.normalize channelQuatW 2
      (get_nearby_keyframes channelQuatW.keyframe_timings 2).1
      (get_nearby_keyframes channelQuatW.keyframe_timings 2).2 = .ok ⟨0, 0, 1, 0⟩ := by
  refine ⟨(claim_C6.1 channelVec3W (-1) (by decide)).1 [⟨1, 2, 3⟩, ⟨4, 5, 6⟩]
            ⟨1, 2, 3⟩ (by decide) (by decide) (Or.inl rfl),
          (claim_C6.2 channelVec3W 2 (by decide) (by decide)).1 [⟨1, 2, 3⟩, ⟨4, 5, 6⟩]
            ⟨4, 5, 6⟩ (by decide) (by decide) (Or.inl rfl),
          ((claim_C6.2 channelQuatW 2 (by decide) (by decide)).2 glamTrivial.slerp
            glamTrivial.normalize [⟨0, 0, 0, 1⟩, ⟨0, 0, 1, 0⟩] ⟨0, 0, 1, 0⟩
            (by decide) (by decide)).2 rfl (fun q => rfl)⟩

theorem ancestry_list_of_chain (s : Scene) :
    ∀ (c : List (GameNodeId × GameNode)) (fuel : Nat),
      c ≠ [] →
      (∀ p ∈ c, s.get_node p.1 = .ok (some p.2)) →
      (∀ hd, c.head? = some hd → hd.2.parent_id = none) →
      List.Chain' (fun a b => b.2.parent_id = some a.1) c →
      c.length ≤ fuel →
      ∀ lastp, c.getLast? = some lastp →
        s.get_node_ancestry_list lastp.1 fuel = .ok (c.reverse.map Prod.fst) := by
  intro c
  induction c using List.reverseRecOn with
  | nil => intro fuel hne; exact absurd rfl hne
  | append_singleton c' p ih =>
    intro fuel _ hmem hhead hchain hfuel lastp hlast
    have hlastp : lastp = p := by
      rw [List.getLast?_concat] at hlast
      exact (Option.some.injEq _ _ ▸ hlast).symm
    subst hlastp
    have hp : s.get_node lastp.1 = .ok (some lastp.2) :=
      hmem lastp (List.mem_append_right _ (List.mem_singleton.mpr rfl))
    obtain ⟨fuel, rfl⟩ : ∃ f, fuel = f + 1 := by
      cases fuel with
      | zero => simp at hfuel
      | succ f => exact ⟨f, rfl⟩
    cases hc' : c' with
    | nil =>
      have hparent : lastp.2.parent_id = none := by
        apply hhead lastp
        rw [hc']
        rfl
      subst hc'
      unfold Scene.get_node_ancestry_list
      simp [hp, hparent]
    | cons a as =>
      have hchain' : List.Chain' (fun a b => b.2.parent_id = some a.1) c' :=
        (List.chain'_append.mp hchain).1
      have hcne : c' ≠ [] := by rw [hc']; exact List.cons_ne_nil a as
      have hlast' : c'.getLast? = some (c'.getLast hcne) :=
        List.getLast?_eq_getLast c' hcne
      have hparent : lastp.2.parent_id = some (c'.getLast hcne).1 := by
        have h3 := (List.chain'_append.mp hchain).2.2
        exact h3 (c'.getLast hcne) hlast' lastp rfl
      have hih := ih fuel hcne
        (fun q hq => hmem q (List.mem_append_left _ hq))
        (fun hd hh => hhead hd (by
          rw [hc'] at hh ⊢
          exact hh))
        hchain'
        (by
          have : c'.length + 1 ≤ fuel + 1 := by
            simpa using hfuel
          omega)
        (c'.getLast hcne) hlast'
      unfold Scene.get_node_ancestry_list
      simp [hp, hparent, hih, Panic.map, List.reverse_append]
      rw [hc']
      simp


theorem fold_ancestry_of_live (s : Scene) :
    ∀ (c : List (GameNodeId × GameNode)) (acc : Transform),
      (∀ p ∈ c, s.nodes.get? p.1.index = some (some p.2, p.1.gen)) →
      Scene.fold_ancestry_transforms s (c.map Prod.fst) acc =
        .ok (c.foldl (fun t p => t * p.2.transform) acc) := by
  intro c
  induction c with
  | nil => intro acc _; rfl
  | cons p rest ih =>
    intro acc h
    have hp := h p (List.mem_cons_self p rest)
    simp only [List.map_cons, List.foldl_cons]
    unfold Scene.fold_ancestry_transforms
    rw [hp]
    exact ih (acc * p.2.transform) (fun q hq => h q (List.mem_cons_of_mem p hq))

/-- C7.  For a chain of live nodes root → … → node (each node's parent being
the previous link, the root parentless, the depth within the hierarchy cap),
the global transform of the last node is the left-to-right product of the
chain's local transforms, root-ward first. -/
theorem claim_C7 :
    ∀ (s : Scene) (c : List (GameNodeId × GameNode)),
      c ≠ [] →
      (∀ p ∈ c, s.get_node p.1 = .ok (some p.2)) →
      (∀ hd, c.head? = some hd → hd.2.parent_id = none) →
      List.Chain' (fun a b => b.2.parent_id = some a.1) c →
      c.length ≤ MAX_NODE_HIERARCHY_LEVELS →
      ∀ lastp, c.getLast? = some lastp →
        s.get_global_transform_for_node lastp.1 =
          .ok (c.foldl (fun acc p => acc * p.2.transform) Transform.IDENTITY) := by
  intro s c hne hmem hhead hchain hdepth lastp hlast
  have hanc := ancestry_list_of_chain s c
    (s.nodes.length + MAX_NODE_HIERARCHY_LEVELS + 2) hne hmem hhead hchain
    (Nat.le_trans hdepth (by omega)) lastp hlast
  unfold Scene.get_global_transform_for_node
  rw [hanc]
  show Scene.fold_ancestry_transforms s (c.reverse.map Prod.fst).reverse _ = _
  have hrev : (c.reverse.map Prod.fst).reverse = c.map Prod.fst := by
    rw [← List.map_reverse, List.reverse_reverse]
  rw [hrev]
  exact fold_ancestry_of_live s c Transform.IDENTITY
    (fun p hp => (Scene.get_node_ok_some_iff s p.1 p.2).mp (hmem p hp))

/-- C7 witness: the spec's scenario — A at the origin, B at `(1,0,0)` under
A, C at `(0,1,0)` under B — yields global position `(1,1,0)` for C. -/
theorem claim_C7_witness :
    sceneChainW.get_global_transform_for_node ⟨2, 0⟩ =
      .ok ⟨⟨1, 1, 0⟩, QuatQ.identity, Vec3Q.one⟩ := by
  have h := claim_C7 sceneChainW [(⟨0, 0⟩, nodeA), (⟨1, 0⟩, nodeB), (⟨2, 0⟩, nodeC)]
    (by decide) (by decide)
    (by
      intro hd hh
      simp only [List.head?_cons, Option.some.injEq] at hh
      exact hh ▸ (by decide))
    (List.chain'_cons.mpr ⟨by decide, List.chain'_cons.mpr
      ⟨by decide, List.chain'_singleton _⟩⟩)
    (by decide) (⟨2, 0⟩, nodeC) (by decide)
  rw [h]
  decide

/-- C8.  One tick's staged writes depend only on the animations (their states
and channel data), never on node transforms: scenes with equal animation
lists stage identical write sequences; and `step_animations` applies the
writes of the staging phase only after that phase has produced them all. -/
theorem claim_C8 :
    ∀ (g : GlamOps) (s₁ s₂ : Scene) (dt : ℚ),
      s₁.animations = s₂.animations →
      staged_writes g s₁ dt = staged_writes g s₂ dt ∧
      (∀ (animations : List Animation) (ops : List (GameNodeId × AnimOp)),
        step_animations_staging g s₁.animations dt = .ok (animations, ops) →
        step_animations g s₁ dt =
          apply_animation_ops { s₁ with animations := animations } ops) := by
  intro g s₁ s₂ dt h
  constructor
  · unfold staged_writes
    rw [h]
  · intro animations ops hstage
    unfold step_animations
    rw [hstage]

/-- C8 witness: two one-node scenes with the same playing animation but
different node transforms stage the same writes, and the tick is the staging
result applied afterwards. -/
theorem claim_C8_witness :
    staged_writes glamTrivial sceneAnimA 1 = staged_writes glamTrivial sceneAnimB 1 ∧
    step_animations glamTrivial sceneAnimA 1 =
      apply_animation_ops
        { sceneAnimA with animations := [{ animPlayingW with state := ⟨1, true, .Wrap⟩ }] }
        [(⟨0, 0⟩, .translation ⟨4, 5, 6⟩)] := by
  have h := claim_C8 glamTrivial sceneAnimA sceneAnimB 1 rfl
  exact ⟨h.1, h.2 _ _ (by decide)⟩

theorem mem_of_getLast?_eq_some {l : List α} {a : α} (h : l.getLast? = some a) :
    a ∈ l := by
  cases l with
  | nil => cases h
  | cons x xs =>
    rw [List.getLast?_eq_getLast (x :: xs) (List.cons_ne_nil x xs)] at h
    injection h with h2
    rw [← h2]
    exact List.getLast_mem _

theorem le_getLast_of_chain'_le :
    ∀ (l : List ℚ) (hne : l ≠ []), List.Chain' (· ≤ ·) l →
      ∀ x ∈ l, x ≤ l.getLast hne := by
  intro l
  induction l with
  | nil => intro hne; exact absurd rfl hne
  | cons a rest ih =>
    intro hne hchain x hx
    cases rest with
    | nil =>
      simp only [List.mem_singleton] at hx
      subst hx
      simp [List.getLast]
    | cons b bs =>
      have hab : a ≤ b := (List.chain'_cons.mp hchain).1
      have hchain' := (List.chain'_cons.mp hchain).2
      have hlast : (a :: b :: bs).getLast hne =
          (b :: bs).getLast (List.cons_ne_nil b bs) := by
        simp [List.getLast_cons]
      rw [hlast]
      rcases List.mem_cons.mp hx with rfl | hx'
      · exact le_trans hab
          (ih (List.cons_ne_nil b bs) hchain' b (List.mem_cons_self b bs))
      · exact ih (List.cons_ne_nil b bs) hchain' x hx'

theorem panic_mapM_getLast (ts : List (List ℚ)) (h : ∀ l ∈ ts, l ≠ []) :
    ∃ lasts : List ℚ,
      mapPanic (fun keyframe_times => Panic.ofOption keyframe_times.getLast?) ts =
        .ok lasts ∧
      (∀ y ∈ lasts, ∃ l ∈ ts, l.getLast? = some y) ∧
      (∀ l ∈ ts, ∃ y ∈ lasts, l.getLast? = some y) := by
  induction ts with
  | nil => exact ⟨[], rfl, by simp, by simp⟩
  | cons l rest ih =>
    have hl : l ≠ [] := h l (List.mem_cons_self l rest)
    have hy : l.getLast? = some (l.getLast hl) := List.getLast?_eq_getLast l hl
    obtain ⟨lasts, h1, h3, h4⟩ := ih (fun q hq => h q (List.mem_cons_of_mem _ hq))
    refine ⟨l.getLast hl :: lasts, ?_, ?_, ?_⟩
    · simp [mapPanic, hy, h1]
    · intro z hz
      rcases List.mem_cons.mp hz with rfl | hz'
      · exact ⟨l, List.mem_cons_self l rest, hy⟩
      · obtain ⟨l', hl', hy'⟩ := h3 z hz'
        exact ⟨l', List.mem_cons_of_mem _ hl', hy'⟩
    · intro l' hl'
      rcases List.mem_cons.mp hl' with rfl | h'
      · exact ⟨l'.getLast hl, List.mem_cons_self _ _, List.getLast?_eq_getLast l' hl⟩
      · obtain ⟨y, hymem, hy'⟩ := h4 l' h'
        exact ⟨y, List.mem_cons_of_mem _ hymem, hy'⟩

theorem max_by_foldl_spec (l : List ℚ) :
    ∀ m : ℚ, ∃ m', l.foldl max_by_step (some m) = some m' ∧
      (m' = m ∨ m' ∈ l) ∧ m ≤ m' ∧ ∀ x ∈ l, x ≤ m' := by
  induction l with
  | nil => intro m; exact ⟨m, rfl, Or.inl rfl, le_refl m, by simp⟩
  | cons x rest ih =>
    intro m
    obtain ⟨m', h1, h2, h3, h4⟩ := ih (if m ≤ x then x else m)
    refine ⟨m', ?_, ?_, ?_, ?_⟩
    · simpa [List.foldl_cons, max_by_step] using h1
    · rcases h2 with rfl | h2'
      · by_cases hmx : m ≤ x
        · right; rw [if_pos hmx]; exact List.mem_cons_self x rest
        · left; rw [if_neg hmx]
      · right; exact List.mem_cons_of_mem x h2'
    · refine le_trans ?_ h3
      by_cases hmx : m ≤ x
      · rw [if_pos hmx]; exact hmx
      · rw [if_neg hmx]
    · intro z hz
      rcases List.mem_cons.mp hz with rfl | hz'
      · refine le_trans ?_ h3
        by_cases hmx : m ≤ z
        · rw [if_pos hmx]
        · rw [if_neg hmx]; exact le_of_lt (not_le.mp hmx)
      · exact h4 z hz'

theorem max_by_f32_spec (l : List ℚ) (hne : l ≠ []) :
    ∃ m, max_by_f32 l = some m ∧ m ∈ l ∧ ∀ x ∈ l, x ≤ m := by
  cases l with
  | nil => exact absurd rfl hne
  | cons x rest =>
    obtain ⟨m, h1, h2, h3, h4⟩ := max_by_foldl_spec rest x
    refine ⟨m, ?_, ?_, ?_⟩
    · unfold max_by_f32
      simpa [List.foldl_cons, max_by_step] using h1
    · rcases h2 with rfl | h2'
      · exact List.mem_cons_self m rest
      · exact List.mem_cons_of_mem x h2'
    · intro z hz
      rcases List.mem_cons.mp hz with rfl | hz'
      · exact h3
      · exact h4 z hz'

/-- C9.  When an animation has at least one channel, each channel at least one
keyframe, and keyframe times non-decreasing, the loader's `length_seconds` is
the maximum keyframe time across all its channels. -/
theorem claim_C9 :
    ∀ (name : Option String) (channel_timings : List (List ℚ))
      (channels : List IndexedChannel),
      channel_timings ≠ [] →
      (∀ l ∈ channel_timings, l ≠ [] ∧ List.Chain' (· ≤ ·) l) →
      ∃ a, get_animations_entry name channel_timings channels = .ok a ∧
        a.length_seconds ∈ channel_timings.flatten ∧
        ∀ x ∈ channel_timings.flatten, x ≤ a.length_seconds := by
  intro name ts channels hne hsorted
  obtain ⟨lasts, hmapM, h3, h4⟩ := panic_mapM_getLast ts (fun l hl => (hsorted l hl).1)
  have hlne : lasts ≠ [] := by
    cases ts with
    | nil => exact absurd rfl hne
    | cons l ls =>
      obtain ⟨y, hymem, _⟩ := h4 l (List.mem_cons_self l ls)
      exact List.ne_nil_of_mem hymem
  obtain ⟨m, hmax, hmem, hbound⟩ := max_by_f32_spec lasts hlne
  refine ⟨⟨name, m, channels⟩, ?_, ?_, ?_⟩
  · unfold get_animations_entry get_animation_length
    simp [hmapM, hmax]
  · obtain ⟨l', hl', hy'⟩ := h3 m hmem
    exact List.mem_flatten.mpr ⟨l', hl', mem_of_getLast?_eq_some hy'⟩
  · intro x hx
    obtain ⟨l', hl', hxl⟩ := List.mem_flatten.mp hx
    obtain ⟨y, hymem, hy⟩ := h4 l' hl'
    have hl'ne := (hsorted l' hl').1
    have hxy : x ≤ l'.getLast hl'ne :=
      le_getLast_of_chain'_le l' hl'ne (hsorted l' hl').2 x hxl
    have hgy : l'.getLast hl'ne = y := by
      rw [List.getLast?_eq_getLast l' hl'ne] at hy
      injection hy
    exact le_trans (hgy ▸ hxy) (hbound y hymem)

/-- C9 witness: two channels with timing arrays `[0, 1]` and `[0, 2]` give an
animation whose length is a keyframe time bounding all keyframe times (the
maximum, 2). -/
theorem claim_C9_witness :
    ∃ a, get_animations_entry none [[0, 1], [0, 2]] [] = .ok a ∧
      a.length_seconds ∈ ([[0, 1], [0, 2]] : List (List ℚ)).flatten ∧
      ∀ x ∈ ([[0, 1], [0, 2]] : List (List ℚ)).flatten, x ≤ a.length_seconds :=
  claim_C9 none [[0, 1], [0, 2]] [] (by decide)
    (by
      intro l hl
      rcases List.mem_cons.mp hl with rfl | hl2
      · exact ⟨by decide, List.chain'_cons.mpr ⟨by decide, List.chain'_singleton _⟩⟩
      · rcases List.mem_cons.mp hl2 with rfl | hl3
        · exact ⟨by decide, List.chain'_cons.mpr ⟨by decide, List.chain'_singleton _⟩⟩
        · cases hl3)

/-- The conjunction of the free-list invariant and well-indexed liveness that
the reachability induction carries. -/
def scene_ok (s : Scene) : Prop := free_list_ok s ∧ nodes_well_indexed s

theorem add_node_cases (s : Scene) (desc : GameNodeDesc) (s' : Scene) (n : GameNode)
    (h : s.add_node desc = .ok (s', n)) :
    (s.empty_node_indices.getLast? = none ∧
     n = ⟨desc.transform, desc.skin_index, desc.visual, desc.name, desc.parent_id,
          ⟨s.nodes.length, 0⟩⟩ ∧
     s' = { s with nodes := s.nodes ++ [(some n, 0)] }) ∨
    (∃ i a g, s.empty_node_indices.getLast? = some i ∧
      s.nodes.get? i = some (a, g) ∧
      n = ⟨desc.transform, desc.skin_index, desc.visual, desc.name, desc.parent_id,
           ⟨i, g + 1⟩⟩ ∧
      s' = { s with nodes := s.nodes.set i (some n, g + 1)
                    empty_node_indices := s.empty_node_indices.dropLast }) := by
  unfold Scene.add_node at h
  cases hempty : s.empty_node_indices.getLast? with
  | none =>
    rw [hempty] at h
    simp only [Panic.ok.injEq, Prod.mk.injEq] at h
    left
    exact ⟨rfl, h.2.symm, by rw [← h.1, ← h.2]⟩
  | some i =>
    rw [hempty] at h
    dsimp only at h
    cases hslot : s.nodes.get? i with
    | none => rw [hslot] at h; simp at h
    | some slot =>
      obtain ⟨a, g⟩ := slot
      rw [hslot] at h
      simp only [Panic.ok.injEq, Prod.mk.injEq] at h
      right
      exact ⟨i, a, g, rfl, hslot, h.2.symm, by rw [← h.1, ← h.2]⟩

theorem remove_node_cases (s : Scene) (id : GameNodeId) (s' : Scene)
    (h : s.remove_node id = .ok s') :
    (s.get_node id = .ok none ∧ s' = s) ∨
    (∃ node a g, s.get_node id = .ok (some node) ∧
      s.nodes.get? node.id.index = some (a, g) ∧
      s' = { s with nodes := s.nodes.set node.id.index (none, g)
                    empty_node_indices :=
                      s.empty_node_indices ++ [node.id.index] }) := by
  unfold Scene.remove_node at h
  cases hget : s.get_node id with
  | panicked => rw [hget] at h; cases h
  | ok o =>
    cases o with
    | none =>
      rw [hget] at h
      simp only [Panic.ok.injEq] at h
      exact Or.inl ⟨rfl, h.symm⟩
    | some node =>
      rw [hget] at h
      dsimp only at h
      cases hslot : s.nodes.get? node.id.index with
      | none => rw [hslot] at h; simp at h
      | some slot =>
        obtain ⟨a, g⟩ := slot
        rw [hslot] at h
        simp only [Panic.ok.injEq] at h
        exact Or.inr ⟨node, a, g, rfl, hslot, h.symm⟩

theorem scene_ok_add (s : Scene) (desc : GameNodeDesc) (s' : Scene) (n : GameNode)
    (hok : scene_ok s) (h : s.add_node desc = .ok (s', n)) : scene_ok s' := by
  obtain ⟨⟨hnodup, hfree⟩, hwf⟩ := hok
  rcases add_node_cases s desc s' n h with
    ⟨hempty, hn, rfl⟩ | ⟨i, a, g, hempty, hslot, hn, rfl⟩
  · constructor
    · constructor
      · exact hnodup
      · intro j hj
        obtain ⟨gj, hgj⟩ := hfree j hj
        refine ⟨gj, ?_⟩
        rw [List.get?_eq_getElem?] at hgj ⊢
        rw [List.getElem?_append_left (lt_length_of_get?_eq_some
          (by rw [List.get?_eq_getElem?]; exact hgj))]
        exact hgj
    · intro j m gm hm
      rw [List.get?_eq_getElem?] at hm
      rcases Nat.lt_or_ge j s.nodes.length with hlt | hge
      · rw [List.getElem?_append_left hlt] at hm
        exact hwf j m gm (by rw [List.get?_eq_getElem?]; exact hm)
      · rw [List.getElem?_append_right hge] at hm
        rcases Nat.lt_or_ge (j - s.nodes.length) 1 with h1 | h1
        · have hj0 : j - s.nodes.length = 0 := Nat.lt_one_iff.mp h1
          rw [hj0] at hm
          simp only [List.getElem?_cons_zero, Option.some.injEq, Prod.mk.injEq] at hm
          have hnm := hm.1
          have hj : j = s.nodes.length := by omega
          rw [← hnm, hn, hj]
        · rw [List.getElem?_eq_none (by simpa using h1)] at hm
          cases hm
  · have hine : s.empty_node_indices ≠ [] := by
      intro he
      rw [he] at hempty
      cases hempty
    have hsplit : s.empty_node_indices.dropLast ++
        [s.empty_node_indices.getLast hine] = s.empty_node_indices :=
      List.dropLast_append_getLast hine
    have higet : s.empty_node_indices.getLast hine = i := by
      rw [List.getLast?_eq_getLast _ hine] at hempty
      injection hempty
    have hnotmem : i ∉ s.empty_node_indices.dropLast := by
      intro hmem
      have := hnodup
      rw [← hsplit, higet] at this
      exact (List.disjoint_of_nodup_append this) hmem (List.mem_singleton.mpr rfl)
    constructor
    · constructor
      · exact hnodup.sublist (List.dropLast_sublist _)
      · intro j hj
        have hjmem : j ∈ s.empty_node_indices :=
          (List.dropLast_sublist _).mem hj
        obtain ⟨gj, hgj⟩ := hfree j hjmem
        have hjne : j ≠ i := fun hji => hnotmem (hji ▸ hj)
        refine ⟨gj, ?_⟩
        rw [List.get?_eq_getElem?] at hgj ⊢
        rw [List.getElem?_set_ne (fun hij => hjne hij.symm)]
        exact hgj
    · intro j m gm hm
      rw [List.get?_eq_getElem?] at hm
      by_cases hji : j = i
      · subst hji
        have hjlt : j < s.nodes.length :=
          lt_length_of_get?_eq_some hslot
        rw [List.getElem?_set_self hjlt] at hm
        simp only [Option.some.injEq, Prod.mk.injEq] at hm
        have hnm := hm.1
        rw [← hnm, hn]
      · rw [List.getElem?_set_ne (fun hij => hji hij.symm)] at hm
        exact hwf j m gm (by rw [List.get?_eq_getElem?]; exact hm)

theorem scene_ok_remove (s : Scene) (id : GameNodeId) (s' : Scene)
    (hok : scene_ok s) (h : s.remove_node id = .ok s') : scene_ok s' := by
  obtain ⟨⟨hnodup, hfree⟩, hwf⟩ := hok
  rcases remove_node_cases s id s' h with ⟨_, rfl⟩ | ⟨node, a, g, hget, hslot, rfl⟩
  · exact ⟨⟨hnodup, hfree⟩, hwf⟩
  · have hslot0 : s.nodes.get? id.index = some (some node, id.gen) :=
      (Scene.get_node_ok_some_iff s id node).mp hget
    have hidx : node.id.index = id.index := hwf id.index node id.gen hslot0
    have hocc : s.nodes.get? node.id.index = some (some node, id.gen) := by
      rw [hidx]; exact hslot0
    have hknotmem : node.id.index ∉ s.empty_node_indices := by
      intro hmem
      obtain ⟨ge, hge⟩ := hfree _ hmem
      rw [hocc] at hge
      simp at hge
    constructor
    · constructor
      · rw [List.nodup_append]
        refine ⟨hnodup, List.nodup_singleton _, ?_⟩
        intro x hx hx'
        rw [List.mem_singleton.mp hx'] at hx
        exact hknotmem hx
      · intro j hj
        rcases List.mem_append.mp hj with hj' | hj'
        · obtain ⟨gj, hgj⟩ := hfree j hj'
          have hjk : j ≠ node.id.index := fun hjk => hknotmem (hjk ▸ hj')
          refine ⟨gj, ?_⟩
          rw [List.get?_eq_getElem?] at hgj ⊢
          rw [List.getElem?_set_ne (fun hk => hjk hk.symm)]
          exact hgj
        · have hjk : j = node.id.index := List.mem_singleton.mp hj'
          subst hjk
          refine ⟨g, ?_⟩
          rw [List.get?_eq_getElem?,
            List.getElem?_set_self (lt_length_of_get?_eq_some hslot)]
    · intro j m gm hm
      rw [List.get?_eq_getElem?] at hm
      by_cases hjk : j = node.id.index
      · subst hjk
        rw [List.getElem?_set_self (lt_length_of_get?_eq_some hslot)] at hm
        simp at hm
      · rw [List.getElem?_set_ne (fun hk => hjk hk.symm)] at hm
        exact hwf j m gm (by rw [List.get?_eq_getElem?]; exact hm)

theorem scene_ok_merge (s other : Scene) (mesh_index_offset material_index_offset : Nat)
    (hok : scene_ok s) (hother : scene_ok other) :
    scene_ok (s.merge_scene mesh_index_offset material_index_offset other) := by
  obtain ⟨⟨hnodup, hfree⟩, hwf⟩ := hok
  obtain ⟨_, hwfo⟩ := hother
  unfold Scene.merge_scene
  dsimp only
  constructor
  · constructor
    · exact hnodup
    · intro j hj
      obtain ⟨gj, hgj⟩ := hfree j hj
      refine ⟨gj, ?_⟩
      rw [List.get?_eq_getElem?] at hgj ⊢
      rw [List.getElem?_append_left (lt_length_of_get?_eq_some
        (by rw [List.get?_eq_getElem?]; exact hgj))]
      exact hgj
  · intro j m gm hm
    rw [List.get?_eq_getElem?] at hm
    rcases Nat.lt_or_ge j s.nodes.length with hlt | hge
    · rw [List.getElem?_append_left hlt] at hm
      exact hwf j m gm (by rw [List.get?_eq_getElem?]; exact hm)
    · rw [List.getElem?_append_right hge, List.getElem?_map] at hm
      cases ho : other.nodes[j - s.nodes.length]? with
      | none => rw [ho] at hm; cases hm
      | some slot =>
        obtain ⟨oa, og⟩ := slot
        rw [ho] at hm
        simp only [Option.map_some', Option.some.injEq, Prod.mk.injEq] at hm
        obtain ⟨n0, hoa, hrw⟩ := Option.map_eq_some'.mp hm.1
        have hidx0 : n0.id.index = j - s.nodes.length := by
          apply hwfo (j - s.nodes.length) n0 og
          rw [List.get?_eq_getElem?, ho, hoa]
        rw [← hrw]
        show (convert_node_id s.nodes.length n0.id).index = j
        unfold convert_node_id
        dsimp only
        omega

theorem panic_bind_ok {x : Panic α} {f : α → Panic β} {b : β}
    (h : (x >>= f) = .ok b) : ∃ a, x = .ok a ∧ f a = .ok b := by
  cases x with
  | panicked => cases h
  | ok a => exact ⟨a, rfl, h⟩

theorem scene_ok_foldl_add (nodes_desc : List IndexedGameNodeDesc) :
    ∀ (s s' : Scene), scene_ok s →
      nodes_desc.foldlM (fun scene node_desc =>
        (scene.add_node
          { transform := node_desc.transform
            skin_index := node_desc.skin_index
            visual := node_desc.visual
            name := node_desc.name
            parent_id := node_desc.parent_index.map (⟨·, 0⟩) }).map Prod.fst) s =
        .ok s' →
      scene_ok s' := by
  induction nodes_desc with
  | nil =>
    intro s s' hok h
    simp only [List.foldlM_nil, Panic.pure_eq_ok, Panic.ok.injEq] at h
    rw [← h]
    exact hok
  | cons d rest ih =>
    intro s s' hok h
    rw [List.foldlM_cons] at h
    cases hadd : s.add_node
        { transform := d.transform
          skin_index := d.skin_index
          visual := d.visual
          name := d.name
          parent_id := d.parent_index.map (⟨·, 0⟩) } with
    | panicked => rw [hadd] at h; cases h
    | ok p =>
      obtain ⟨s1, n1⟩ := p
      rw [hadd] at h
      exact ih s1 s' (scene_ok_add s _ s1 n1 hok hadd) h

theorem scene_ok_new (nodes_desc : List IndexedGameNodeDesc)
    (indexed_skins : List IndexedSkin) (animations : List IndexedAnimation)
    (s : Scene) (h : Scene.new nodes_desc indexed_skins animations = .ok s) :
    scene_ok s := by
  unfold Scene.new at h
  obtain ⟨scene1, hfold, h2⟩ := panic_bind_ok h
  obtain ⟨skins, _, h3⟩ := panic_bind_ok h2
  simp only [Panic.pure_eq_ok, Panic.ok.injEq] at h3
  have hok0 : scene_ok
      { nodes := []
        empty_node_indices := []
        skins := []
        animations := animations.map (fun indexed_animation =>
          { name := indexed_animation.name
            length_seconds := indexed_animation.length_seconds
            speed := 1
            channels := indexed_animation.channels.map (fun indexed_channel =>
              { node_id := ⟨indexed_channel.node_index, 0⟩
                property := indexed_channel.property
                interpolation_type := indexed_channel.interpolation_type
                keyframe_timings := indexed_channel.keyframe_timings
                keyframe_values := indexed_channel.keyframe_values })
            state := ⟨0, false, .Once⟩ }) } := by
    refine ⟨⟨List.nodup_nil, ?_⟩, ?_⟩
    · intro i hi
      cases hi
    · intro i n g hget
      cases hget
  have hok1 : scene_ok scene1 := scene_ok_foldl_add nodes_desc _ scene1 hok0 hfold
  rw [← h3]
  exact hok1

theorem reachable_scene_ok : ∀ s, Reachable s → scene_ok s := by
  intro s h
  induction h with
  | new ds ks as s hnew => exact scene_ok_new ds ks as s hnew
  | add s desc s' n _ hadd ih => exact scene_ok_add s desc s' n ih hadd
  | remove s id s' _ hrem ih => exact scene_ok_remove s id s' ih hrem
  | merge s other moff mtoff _ _ ih iho => exact scene_ok_merge s other moff mtoff ih iho

/-- C10.  In every scene reachable from `Scene::new` through `add_node`,
`remove_node` and `merge_scene`, the free list has no duplicates and every
free index denotes an in-bounds empty slot; consequently `add_node` never
places its fresh node over a live one. -/
theorem claim_C10 :
    ∀ s : Scene, Reachable s →
      (s.empty_node_indices.Nodup ∧
        ∀ i ∈ s.empty_node_indices, ∃ g, s.nodes.get? i = some (none, g)) ∧
      (∀ (desc : GameNodeDesc) (s' : Scene) (n' : GameNode),
        s.add_node desc = .ok (s', n') →
        ∀ m g, s.nodes.get? n'.id.index = some (some m, g) → False) := by
  intro s h
  have hok := reachable_scene_ok s h
  refine ⟨hok.1, ?_⟩
  intro desc s' n' hadd m g hget
  rcases add_node_cases s desc s' n' hadd with
    ⟨hemp, hn, _⟩ | ⟨i, a, ga, hemp, hslot, hn, _⟩
  · rw [hn] at hget
    dsimp only at hget
    rw [List.get?_eq_none.mpr (le_refl _)] at hget
    cases hget
  · have himem : i ∈ s.empty_node_indices := mem_of_getLast?_eq_some hemp
    obtain ⟨ge, hge⟩ := hok.1.2 i himem
    rw [hn] at hget
    dsimp only at hget
    rw [hge] at hget
    simp at hget

/-- C10 witness: the invariant at the reachable scene built by
new → add → remove → add → remove, whose free list is `[0]` over an empty
slot of generation 1. -/
theorem claim_C10_witness :
    (sceneStaleSlot.empty_node_indices.Nodup ∧
      ∀ i ∈ sceneStaleSlot.empty_node_indices,
        ∃ g, sceneStaleSlot.nodes.get? i = some (none, g)) ∧
    (∀ (desc : GameNodeDesc) (s' : Scene) (n' : GameNode),
      sceneStaleSlot.add_node desc = .ok (s', n') →
      ∀ m g, sceneStaleSlot.nodes.get? n'.id.index = some (some m, g) → False) :=
  claim_C10 sceneStaleSlot
    (Reachable.remove sceneGen1 ⟨0, 1⟩ sceneStaleSlot
      (Reachable.add sceneRemoved descDefault sceneGen1 nodeGen1
        (Reachable.remove sceneW ⟨0, 0⟩ sceneRemoved
          (Reachable.add sceneEmpty descDefault sceneW nodeW
            (Reachable.new [] [] [] sceneEmpty (by decide))
            (by decide))
          (by decide))
        (by decide))
      (by decide))
